import Mathlib

/-!
Verification development for the atlas backend voter-import and
identity-reconciliation pipeline.  The definitions below are a shallow
embedding of the TypeScript source: `src/utils/csvParser.ts`
(`cleanLouisianaHeader`), the worker job `processImportJob` and its header
mapper `mapHeaderToField`, and the Express handlers in `src/app.ts`
(voter create/update, merge, merge alerts, tenant-scoped reads), over an
explicit relational state mirroring `src/schema.sql`.
-/

/-! ## JavaScript value-coercion helpers

The handlers lean on JS truthiness: `a || b` falls through on `undefined`,
`null`, the empty string and the number 0.  `Option String` models an
optional string field (`none` = absent), `Option ℚ` an optional numeric
field. -/

/-- JS `a || b` on optional strings: the empty string is falsy. -/
def jsStrOr (a b : Option String) : Option String :=
  match a with
  | some s => if s = "" then b else some s
  | none => b

/-- JS `a || d` where `d` is a string default. -/
def jsOrD (a : Option String) (d : String) : String :=
  match a with
  | some s => if s = "" then d else s
  | none => d

/-- JS `a || null` on an optional string: empty string collapses to SQL NULL. -/
def jsOrNull (a : Option String) : Option String :=
  match a with
  | some s => if s = "" then none else some s
  | none => none

/-- JS truthiness filter on an optional number: 0 is falsy. -/
def jsNumTruthy (a : Option ℚ) : Option ℚ :=
  match a with
  | some q => if q = 0 then none else some q
  | none => none

/-- JS truthiness filter on an optional integer (e.g. `v.age || null`). -/
def jsIntTruthy (a : Option Int) : Option Int :=
  match a with
  | some n => if n = 0 then none else some n
  | none => none

/-! ## Header Normalizer (`cleanLouisianaHeader`, `mapHeaderToField`)

String primitives are spelled out over character lists (rather than through
the runtime-optimized `String` API) so that every definition reduces inside
the kernel; on the ASCII header/value data this pipeline handles they agree
with the JS `toUpperCase`/`trim`/`split` they model. -/

/-- JS `toUpperCase`, ASCII. -/
def jsToUpper (s : String) : String :=
  String.mk (s.data.map Char.toUpper)

/-- JS `trim`: drop leading and trailing whitespace. -/
def jsTrim (s : String) : String :=
  String.mk (((s.data.dropWhile Char.isWhitespace).reverse.dropWhile
    Char.isWhitespace).reverse)

/-- `src/utils/csvParser.ts` `cleanLouisianaHeader`: take the portion of the
header before the first comma (`raw.split(',', 1)[0]`), remove every `"`
character (`replace(/"/g, '')`), trim whitespace, upper-case. -/
def cleanLouisianaHeader (header : String) : String :=
  let first := String.mk (header.data.takeWhile (fun c => ¬ (c = ',')))
  jsToUpper (jsTrim (String.mk (first.data.filter (fun c => ¬ (c = '"')))))

/-- The upper-case/strip step at the top of `mapHeaderToField`:
`header.toUpperCase().replace(/[^A-Z0-9]/g, '')`. -/
def normalizeToken (header : String) : String :=
  String.mk ((jsToUpper header).data.filter
    (fun c => ('A' ≤ c ∧ c ≤ 'Z') ∨ ('0' ≤ c ∧ c ≤ '9')))

/-- Boolean substring test on character lists (JS `String.includes`),
spelled out so the model stays self-contained. -/
def charsStartWith : List Char → List Char → Bool
  | _, [] => true
  | [], _ :: _ => false
  | a :: as, b :: bs => a = b && charsStartWith as bs

/-- JS `h.includes(sub)` on strings. -/
def strIncludes (h sub : String) : Bool :=
  go h.data sub.data
where
  go : List Char → List Char → Bool
    | [], sub => sub.isEmpty
    | l@(_ :: t), sub => charsStartWith l sub || go t sub

/-- The canonical internal field vocabulary returned by `mapHeaderToField`. -/
inductive VoterField where
  | external_id | first_name | last_name | middle_name | suffix
  | age | gender | race | party | phone
  | res_house_number | res_house_fraction | res_street_direction | res_street_name
  | address | unit | city | state | zip
  deriving DecidableEq, Repr

def externalIdSyns : List String :=
  ["REGISTRATIONNUMBER", "REGISTRATIONNUM", "REGNUMBER", "VOTERID",
   "STATEVOTERID", "STATEID", "VANID", "EXTERNALID", "ID", "LALISTID"]

def firstNameSyns : List String := ["FIRSTNAME", "NAMEFIRST", "FNAME", "FIRST"]

def lastNameSyns : List String := ["LASTNAME", "NAMELAST", "LNAME", "LAST"]

def middleNameSyns : List String := ["MIDDLENAME", "NAMEMID", "MNAME", "MID", "MI"]

def suffixSyns : List String := ["SUFFIX", "NAMESUFFIX", "PERSONALNAMESUFFIX", "SFX"]

def ageSyns : List String := ["AGE", "BIRTHYEAR", "DOB"]

def genderSyns : List String := ["GENDER", "SEX", "PERSONALSEX"]

def raceSyns : List String := ["RACE", "ETHNICITY", "PERSONALRACE"]

def partySyns : List String :=
  ["PARTY", "PARTYID", "POLITICALPARTY", "PARTYAFFILIATION",
   "REGISTRATIONPOLITICALPARTYCODE"]

def resHouseNumberSyns : List String := ["RESIDENCEHOUSENUMBER"]

def resHouseFractionSyns : List String := ["RESIDENCEHOUSEFRACTION"]

def resStreetDirectionSyns : List String := ["RESIDENCESTREETDIRECTION"]

def resStreetNameSyns : List String := ["RESIDENCESTREETNAME"]

def addressSyns : List String :=
  ["ADDRESS", "RESADDRESS1", "STREETADDRESS", "ADDR1", "RESIDENCEADDRESS",
   "STREET", "ADDRESS1", "RESIDENCEADDRESSLINE1"]

def unitSyns : List String :=
  ["UNIT", "APT", "APARTMENT", "SUITE", "ADDRESS2", "RESADDRESS2", "ADDR2",
   "RESADDRESSLINE2", "RESIDENCEAPARTMENTNUMBER"]

def citySyns : List String := ["CITY", "RESCITY", "RESIDENCECITY", "RESIDENCECITYNAME"]

def stateSyns : List String := ["STATE", "RESSTATE", "ST", "RESIDENCESTATE"]

def zipSyns : List String :=
  ["ZIP", "ZIPCODE", "RESZIP", "POSTALCODE", "ZIP5", "RESIDENCEZIPCODE5"]

/-- The enumerated synonym list of each canonical field, as written in
`mapHeaderToField`.  The phone field has no closed list in the source: it is
matched by `h.includes('PHONE') || h.includes('MOBILE') || h.includes('CELL')`,
so its list here is empty. -/
def synonymsOf : VoterField → List String
  | .external_id => externalIdSyns
  | .first_name => firstNameSyns
  | .last_name => lastNameSyns
  | .middle_name => middleNameSyns
  | .suffix => suffixSyns
  | .age => ageSyns
  | .gender => genderSyns
  | .race => raceSyns
  | .party => partySyns
  | .phone => []
  | .res_house_number => resHouseNumberSyns
  | .res_house_fraction => resHouseFractionSyns
  | .res_street_direction => resStreetDirectionSyns
  | .res_street_name => resStreetNameSyns
  | .address => addressSyns
  | .unit => unitSyns
  | .city => citySyns
  | .state => stateSyns
  | .zip => zipSyns

/-- Every token appearing in some enumerated synonym list. -/
def allSynonyms : List String :=
  externalIdSyns ++ firstNameSyns ++ lastNameSyns ++ middleNameSyns ++
  suffixSyns ++ ageSyns ++ genderSyns ++ raceSyns ++ partySyns ++
  resHouseNumberSyns ++ resHouseFractionSyns ++ resStreetDirectionSyns ++
  resStreetNameSyns ++ addressSyns ++ unitSyns ++ citySyns ++ stateSyns ++ zipSyns

/-- Does the cleaned token trigger the phone branch of `mapHeaderToField`? -/
def phoneSubstringMatch (h : String) : Bool :=
  strIncludes h "PHONE" || strIncludes h "MOBILE" || strIncludes h "CELL"

/-- The decision chain of `mapHeaderToField` over the already-cleaned token:
an ordered lookup through the enumerated synonym lists, in source order, with
the substring-based phone test sitting (as in the source) between the `party`
branch and the `res_house_number` branch.  `lookupSyn` returns the field of
the first list containing the token. -/
def lookupSyn (h : String) (table : List (List String × VoterField)) :
    Option VoterField :=
  (table.find? (fun e => e.1.contains h)).map (fun e => e.2)

/-- The synonym branches before the phone test, in source order. -/
def synTableA : List (List String × VoterField) :=
  [(externalIdSyns, .external_id), (firstNameSyns, .first_name),
   (lastNameSyns, .last_name), (middleNameSyns, .middle_name),
   (suffixSyns, .suffix), (ageSyns, .age), (genderSyns, .gender),
   (raceSyns, .race), (partySyns, .party)]

/-- The synonym branches after the phone test, in source order. -/
def synTableB : List (List String × VoterField) :=
  [(resHouseNumberSyns, .res_house_number),
   (resHouseFractionSyns, .res_house_fraction),
   (resStreetDirectionSyns, .res_street_direction),
   (resStreetNameSyns, .res_street_name), (addressSyns, .address),
   (unitSyns, .unit), (citySyns, .city), (stateSyns, .state),
   (zipSyns, .zip)]

def mapToken (h : String) : Option VoterField :=
  match lookupSyn h synTableA with
  | some f => some f
  | none =>
    if phoneSubstringMatch h then some .phone
    else lookupSyn h synTableB

/-- `mapHeaderToField` from the import worker: clean the header
(`toUpperCase` + strip non-alphanumerics), then run the if-chain. -/
def mapHeaderToField (header : String) : Option VoterField :=
  mapToken (normalizeToken header)


/-! ## Data model (`src/schema.sql`)

Tenants (organizations), voters, import jobs, merge alerts and the dependent
tables the merge operation rewires.  UUIDs are modelled as `Nat` drawn from a
fresh-id supply, timestamps (`NOW()`) as a `Nat` passed in by the caller, and
`DOUBLE PRECISION` geocoordinates as `ℚ`. -/

/-- `voters.source`: `'import' | 'manual'` (`imported` stands for `'import'`). -/
inductive Source where
  | imported | manual
  deriving DecidableEq, Repr

/-- `import_jobs.status`. -/
inductive JobStatus where
  | pending | processing | completed | failed
  deriving DecidableEq, Repr

/-- `voter_merge_alerts.status` (`opened` stands for `'open'`). -/
inductive AlertStatus where
  | opened | resolved | dismissed
  deriving DecidableEq, Repr

/-- A row of the `voters` table.  Column nullability follows the schema. -/
structure Voter where
  id : Nat
  org_id : Nat
  external_id : Option String
  source : Source
  merged_into_voter_id : Option Nat
  first_name : String
  middle_name : Option String
  last_name : String
  suffix : Option String
  age : Option Int
  gender : Option String
  race : Option String
  party : Option String
  phone : Option String
  address : String
  unit : Option String
  city : String
  state : Option String
  zip : String
  geom_lat : Option ℚ
  geom_lng : Option ℚ
  created_at : Nat
  updated_at : Nat
  deriving DecidableEq, Repr

/-- The `result` JSON written by a completed import job. -/
structure JobResult where
  imported_count : Nat
  skipped_missing_external_id : Nat
  total_rows : Nat
  deriving DecidableEq, Repr

/-- The `metadata.progress` JSON of an import job.  All progress writes of one
execution happen inside its transaction, so only the last value written before
`COMMIT` is ever externally observable. -/
structure JobProgress where
  phase : String
  processed_rows : Nat
  total_rows : Option Nat
  deriving DecidableEq, Repr

/-- A row of the `import_jobs` table. -/
structure ImportJobRow where
  id : Nat
  org_id : Nat
  user_id : Nat
  status : JobStatus
  file_key : Option String
  result : Option JobResult
  error : Option String
  progress : Option JobProgress
  created_at : Nat
  updated_at : Nat
  deriving DecidableEq, Repr

/-- A row of `voter_merge_alerts` (unique on `(org_id, lead_voter_id,
imported_voter_id)`). -/
structure MergeAlert where
  id : Nat
  org_id : Nat
  lead_voter_id : Nat
  imported_voter_id : Nat
  reason : String
  status : AlertStatus
  created_at : Nat
  updated_at : Nat
  deriving DecidableEq, Repr

/-- A row of `interactions` (only the columns the merge rewire touches). -/
structure Interaction where
  id : Nat
  org_id : Nat
  voter_id : Nat
  deriving DecidableEq, Repr

/-- A row of `list_members` (only the columns the merge rewire touches). -/
structure ListMember where
  id : Nat
  org_id : Nat
  list_id : Nat
  voter_id : Nat
  deriving DecidableEq, Repr

/-- A row of `platform_events`. -/
structure PlatformEvent where
  org_id : Nat
  user_id : Option Nat
  event_type : String
  deriving DecidableEq, Repr

/-- A row of `audit_logs`. -/
structure AuditLog where
  action : String
  actor_user_id : Nat
  target_org_id : Nat
  deriving DecidableEq, Repr

/-- The relational state.  `nextId` is the fresh-id supply standing in for
`uuid_generate_v4()` / `crypto.randomUUID()`. -/
structure DB where
  voters : List Voter
  import_jobs : List ImportJobRow
  merge_alerts : List MergeAlert
  interactions : List Interaction
  list_members : List ListMember
  platform_events : List PlatformEvent
  audit_logs : List AuditLog
  nextId : Nat
  deriving DecidableEq, Repr

/-- Does voter `v` occupy upsert key `(org, ext)`?  This is the conflict
target of the partial unique index `uq_voters_org_external_id_not_null`. -/
def matchKeyB (org : Nat) (ext : String) (v : Voter) : Bool :=
  decide (v.org_id = org ∧ v.external_id = some ext)

/-- At most one voter row per `(org_id, external_id)` key with non-null
`external_id` — the invariant enforced by
`uq_voters_org_external_id_not_null` in `schema.sql`. -/
def UniqueExt (voters : List Voter) : Prop :=
  ∀ org ext, voters.countP (matchKeyB org ext) ≤ 1

/-! ## Import Orchestrator (`processImportJob`, worker job source) -/

/-- One element of the `voters` payload array (`Record<string, any>`): the
handler reads both snake_case and camelCase spellings of each key.  Rows
coming from the CSV pipeline populate only the snake_case canonical keys. -/
structure ImportRow where
  external_id : Option String := none
  externalId : Option String := none
  first_name : Option String := none
  firstName : Option String := none
  last_name : Option String := none
  lastName : Option String := none
  middle_name : Option String := none
  middleName : Option String := none
  suffix : Option String := none
  age : Option String := none
  gender : Option String := none
  race : Option String := none
  party : Option String := none
  phone : Option String := none
  address : Option String := none
  res_house_number : Option String := none
  res_house_fraction : Option String := none
  res_street_direction : Option String := none
  res_street_name : Option String := none
  unit : Option String := none
  city : Option String := none
  state : Option String := none
  zip : Option String := none
  geom_lat : Option ℚ := none
  geomLat : Option ℚ := none
  geom_lng : Option ℚ := none
  geomLng : Option ℚ := none
  deriving DecidableEq, Repr

/-- `const externalId = row.external_id || row.externalId`. -/
def rowExternalId (r : ImportRow) : Option String :=
  jsStrOr r.external_id r.externalId

/-- The upsert key of a row, or `none` when the row is skipped:
`if (!externalId || String(externalId).trim() === '')`.  Note the key kept is
the raw (untrimmed) value. -/
def rowExt (r : ImportRow) : Option String :=
  match rowExternalId r with
  | none => none
  | some s => if jsTrim s = "" then none else some s

/-- JS `Number(s)` as used on the `age` column values.  Voter files carry
integer age strings; a non-numeric string would produce `NaN` and make the
real `INSERT` fail, a path no claim exercises — modelled as `none`/NULL. -/
def jsNumber (s : String) : Option Int :=
  (jsTrim s).toInt?

/-- The composed residence address: non-empty house-number / fraction /
direction / street-name tokens joined by single spaces. -/
def composedAddress (r : ImportRow) : String :=
  String.intercalate " "
    ((([r.res_house_number, r.res_house_fraction, r.res_street_direction,
        r.res_street_name]).map (fun x => jsTrim (x.getD ""))).filter
      (fun x => ¬ (x = "")))

/-- `const address = (row.address && String(row.address).trim()) ||
composedAddress || 'Unknown'`. -/
def chooseAddress (r : ImportRow) : String :=
  let a := match r.address with
    | none => ""
    | some s => if s = "" then "" else jsTrim s
  if a = "" then (if composedAddress r = "" then "Unknown" else composedAddress r)
  else a

/-- The jitter-independent column values an import row upserts (every mapped
column except the geocoordinates). -/
structure RowCore where
  first_name : String
  middle_name : Option String
  last_name : String
  suffix : Option String
  age : Option Int
  gender : Option String
  race : Option String
  party : Option String
  phone : Option String
  address : String
  unit : Option String
  city : String
  state : String
  zip : String
  deriving DecidableEq, Repr

/-- All column values an import row upserts.  The geocoordinates depend on the
`Math.random()` jitter when the row does not supply them. -/
structure RowData where
  core : RowCore
  geom_lat : ℚ
  geom_lng : ℚ
  deriving DecidableEq, Repr

/-- The jitter-independent insert parameters of `processImportJob`'s upsert. -/
def rowCore (r : ImportRow) : RowCore where
  first_name := jsOrD (jsStrOr r.first_name r.firstName) "Unknown"
  middle_name := jsOrNull (jsStrOr r.middle_name r.middleName)
  last_name := jsOrD (jsStrOr r.last_name r.lastName) "Unknown"
  suffix := jsOrNull r.suffix
  age := match jsOrNull r.age with
    | none => none
    | some s => jsNumber s
  gender := jsOrNull r.gender
  race := jsOrNull r.race
  party := jsOrNull r.party
  phone := jsOrNull r.phone
  address := chooseAddress r
  unit := jsOrNull r.unit
  city := jsOrD r.city "Unknown"
  state := jsOrD r.state "LA"
  zip := jsOrD r.zip ""

/-- JS `a || b || d` on optional numbers with default `d`. -/
def jsQChain (a b : Option ℚ) (d : ℚ) : ℚ :=
  match jsNumTruthy a with
  | some q => q
  | none => match jsNumTruthy b with
    | some q => q
    | none => d

/-- The full insert parameters of the upsert.  `jit` is the pair of
`Math.random()` draws available to this row: the code computes
`row.geom_lat || row.geomLat || 40.7128 + Math.random() * 0.01` (and the
analogue for `-74.006`), so the jitter is consumed only when the row does not
supply a coordinate. -/
def rowData (r : ImportRow) (jit : ℚ × ℚ) : RowData where
  core := rowCore r
  geom_lat := jsQChain r.geom_lat r.geomLat ((407128 : ℚ) / 10000 + jit.1 * (1 / 100))
  geom_lng := jsQChain r.geom_lng r.geomLng (-((74006 : ℚ) / 1000) + jit.2 * (1 / 100))

/-- The `ON CONFLICT (org_id, external_id) DO UPDATE SET ...` column list:
every mapped field is overwritten unconditionally and `updated_at` refreshed;
`id`, `org_id`, `external_id`, `source`, `merged_into_voter_id` and
`created_at` are untouched. -/
def setFields (v : Voter) (d : RowData) (now : Nat) : Voter :=
  { v with
    first_name := d.core.first_name
    middle_name := d.core.middle_name
    last_name := d.core.last_name
    suffix := d.core.suffix
    age := d.core.age
    gender := d.core.gender
    race := d.core.race
    party := d.core.party
    phone := d.core.phone
    address := d.core.address
    unit := d.core.unit
    city := d.core.city
    state := some d.core.state
    zip := d.core.zip
    geom_lat := some d.geom_lat
    geom_lng := some d.geom_lng
    updated_at := now }

/-- The freshly inserted voter row of the upsert's insert arm: `source`
defaults to `'import'`, `merged_into_voter_id` to NULL. -/
def newVoter (vid org : Nat) (ext : String) (d : RowData) (now : Nat) : Voter where
  id := vid
  org_id := org
  external_id := some ext
  source := .imported
  merged_into_voter_id := none
  first_name := d.core.first_name
  middle_name := d.core.middle_name
  last_name := d.core.last_name
  suffix := d.core.suffix
  age := d.core.age
  gender := d.core.gender
  race := d.core.race
  party := d.core.party
  phone := d.core.phone
  address := d.core.address
  unit := d.core.unit
  city := d.core.city
  state := some d.core.state
  zip := d.core.zip
  geom_lat := some d.geom_lat
  geom_lng := some d.geom_lng
  created_at := now
  updated_at := now

/-- Accumulator of the per-row loop of `processImportJob`. -/
structure ImpState where
  voters : List Voter
  nextId : Nat
  importedCount : Nat
  skipped : Nat
  deriving DecidableEq, Repr

/-- One iteration of the row loop: skip the row when its external identifier
is missing, otherwise upsert keyed on `(org_id, external_id)`.  `i` is the
row's position, indexing its jitter draws.  `ON CONFLICT` updates the (under
`UniqueExt` unique) conflicting row; the conditional map realizes exactly
that update. -/
def stepRow (org : Nat) (rnd : Nat → ℚ × ℚ) (now : Nat) (s : ImpState)
    (i : Nat) (r : ImportRow) : ImpState :=
  match rowExt r with
  | none => { s with skipped := s.skipped + 1 }
  | some e =>
    if s.voters.any (matchKeyB org e) then
      { s with
        voters := s.voters.map (fun v =>
          if matchKeyB org e v then setFields v (rowData r (rnd i)) now else v)
        importedCount := s.importedCount + 1 }
    else
      { s with
        voters := s.voters ++ [newVoter s.nextId org e (rowData r (rnd i)) now]
        nextId := s.nextId + 1
        importedCount := s.importedCount + 1 }

/-- The row loop, threading the position index. -/
def foldRows (org : Nat) (rnd : Nat → ℚ × ℚ) (now : Nat) :
    ImpState → Nat → List ImportRow → ImpState
  | s, _, [] => s
  | s, i, r :: rs => foldRows org rnd now (stepRow org rnd now s i r) (i + 1) rs

/-- Unfolding equations of the row loop. -/
theorem foldRows_nil (org : Nat) (rnd : Nat → ℚ × ℚ) (now : Nat) (s : ImpState)
    (i : Nat) : foldRows org rnd now s i [] = s := rfl

theorem foldRows_cons (org : Nat) (rnd : Nat → ℚ × ℚ) (now : Nat) (s : ImpState)
    (i : Nat) (r : ImportRow) (rest : List ImportRow) :
    foldRows org rnd now s i (r :: rest) =
      foldRows org rnd now (stepRow org rnd now s i r) (i + 1) rest := rfl

/-- A row without usable external identifier only bumps the skip counter. -/
theorem stepRow_skip (org : Nat) (rnd : Nat → ℚ × ℚ) (now : Nat) (s : ImpState)
    (i : Nat) (r : ImportRow) (h : rowExt r = none) :
    stepRow org rnd now s i r = { s with skipped := s.skipped + 1 } := by
  simp only [stepRow, h]

/-- A row whose key already exists takes the `ON CONFLICT DO UPDATE` arm. -/
theorem stepRow_conflict (org : Nat) (rnd : Nat → ℚ × ℚ) (now : Nat)
    (s : ImpState) (i : Nat) (r : ImportRow) (e : String)
    (h : rowExt r = some e) (hany : s.voters.any (matchKeyB org e) = true) :
    stepRow org rnd now s i r =
      { s with
        voters := s.voters.map (fun v =>
          if matchKeyB org e v then setFields v (rowData r (rnd i)) now else v)
        importedCount := s.importedCount + 1 } := by
  simp only [stepRow, h, if_pos hany]

/-- A row whose key is absent takes the insert arm. -/
theorem stepRow_insert (org : Nat) (rnd : Nat → ℚ × ℚ) (now : Nat)
    (s : ImpState) (i : Nat) (r : ImportRow) (e : String)
    (h : rowExt r = some e) (hany : ¬ s.voters.any (matchKeyB org e) = true) :
    stepRow org rnd now s i r =
      { s with
        voters := s.voters ++ [newVoter s.nextId org e (rowData r (rnd i)) now]
        nextId := s.nextId + 1
        importedCount := s.importedCount + 1 } := by
  simp only [stepRow, h, if_neg hany]

/-- `processImportJob`, success path (no exception): the whole execution is
one transaction, so the committed effect is the final voter store, the job
marked `completed` with its `result` and final progress metadata, the
`import.started` / `import.completed` lifecycle events and the audit record.
`rnd` is the `Math.random()` oracle (row index ↦ available jitter draws),
`now` the transaction timestamp.  Note the job UPDATEs filter only on
`id` and `org_id` — there is no guard on the job's current status. -/
def processImportJob (db : DB) (jobId org userId : Nat) (rows : List ImportRow)
    (rnd : Nat → ℚ × ℚ) (now : Nat) : DB :=
  let s := foldRows org rnd now ⟨db.voters, db.nextId, 0, 0⟩ 0 rows
  { db with
    voters := s.voters
    nextId := s.nextId
    import_jobs := db.import_jobs.map (fun j =>
      if j.id = jobId ∧ j.org_id = org then
        { j with
          status := .completed
          result := some ⟨s.importedCount, s.skipped, rows.length⟩
          progress := some ⟨"finalizing", s.importedCount, some rows.length⟩
          updated_at := now }
      else j)
    platform_events := db.platform_events ++
      [⟨org, some userId, "import.started"⟩, ⟨org, some userId, "import.completed"⟩]
    audit_logs := db.audit_logs ++ [⟨"import.success", userId, org⟩] }

/-- `processImportJob`, failure path: an exception anywhere in the
transaction triggers `ROLLBACK` (discarding every uncommitted write), then —
outside the transaction — the job is marked `failed` with the error message
and an `import.failed` event is inserted.  Again the UPDATE has no guard on
the job's current status. -/
def processImportJobOnError (db : DB) (jobId org userId : Nat)
    (errMsg : String) (now : Nat) : DB :=
  { db with
    import_jobs := db.import_jobs.map (fun j =>
      if j.id = jobId ∧ j.org_id = org then
        { j with status := .failed, error := some errMsg, updated_at := now }
      else j)
    platform_events := db.platform_events ++ [⟨org, some userId, "import.failed"⟩] }

/-- `POST /api/v1/jobs/import-voters`: insert a `pending` job row and enqueue
(the queue transport itself is out of scope).  Returns the new job id. -/
def createImportJob (db : DB) (org userId : Nat) (now : Nat) : DB × Nat :=
  let jid := db.nextId
  ({ db with
     import_jobs := db.import_jobs ++
       [⟨jid, org, userId, .pending, none, none, none, none, now, now⟩]
     nextId := jid + 1 }, jid)

/-! ## Identity Reconciliation Engine and voter endpoints (`src/app.ts`) -/

/-- `SELECT * FROM voters WHERE id = $1 AND org_id = $2 LIMIT 1`. -/
def findVoter (db : DB) (org vid : Nat) : Option Voter :=
  db.voters.find? (fun v => decide (v.id = vid ∧ v.org_id = org))

/-- Outcome of `POST /api/v1/voters/:leadId/merge-into/:importedId`. -/
inductive MergeOutcome where
  /-- 404: lead or target voter not found in this tenant. -/
  | notFound
  /-- 400: `Lead voter must have source=manual`. -/
  | leadNotManual
  /-- 400: `Target voter must have source=import`. -/
  | targetNotImported
  /-- `{ ok: true, merged: true, idempotent: true }`. -/
  | idempotent
  /-- `{ ok: true, merged: true, moved_interactions, moved_list_members }`. -/
  | merged (movedInteractions movedListMembers : Nat)
  deriving DecidableEq, Repr

/-- The merge endpoint.  Validation order as in the source: existence of both
voters, lead `source = 'manual'`, target `source = 'import'`, then the
idempotency check `lead.merged_into_voter_id === importedId`.  On the rewire
path: interactions and list members of the lead are re-pointed to the target,
the lead's `merged_into_voter_id` is set (each an org-scoped `UPDATE`), any
`open` alert for exactly this pair is resolved, and an audit record inserted —
all in one transaction.  Every early return rolls back, leaving the state
unchanged. -/
def mergeVoters (db : DB) (org userId leadId importedId : Nat) (now : Nat) :
    DB × MergeOutcome :=
  match findVoter db org leadId, findVoter db org importedId with
  | none, _ => (db, .notFound)
  | some _, none => (db, .notFound)
  | some lv, some tv =>
    if lv.source ≠ .manual then (db, .leadNotManual)
    else if tv.source ≠ .imported then (db, .targetNotImported)
    else if lv.merged_into_voter_id = some importedId then (db, .idempotent)
    else
      let movedI := db.interactions.countP
        (fun ix => decide (ix.org_id = org ∧ ix.voter_id = leadId))
      let movedL := db.list_members.countP
        (fun lm => decide (lm.org_id = org ∧ lm.voter_id = leadId))
      ({ db with
         interactions := db.interactions.map (fun ix =>
           if ix.org_id = org ∧ ix.voter_id = leadId then
             { ix with voter_id := importedId } else ix)
         list_members := db.list_members.map (fun lm =>
           if lm.org_id = org ∧ lm.voter_id = leadId then
             { lm with voter_id := importedId } else lm)
         voters := db.voters.map (fun v =>
           if v.id = leadId ∧ v.org_id = org then
             { v with merged_into_voter_id := some importedId, updated_at := now }
           else v)
         merge_alerts := db.merge_alerts.map (fun a =>
           if a.org_id = org ∧ a.lead_voter_id = leadId ∧
              a.imported_voter_id = importedId ∧ a.status = .opened then
             { a with status := .resolved, updated_at := now }
           else a)
         audit_logs := db.audit_logs ++ [⟨"voter.merge", userId, org⟩] },
       .merged movedI movedL)

/-- `PATCH /api/v1/merge-alerts/:id`.  The request status has already passed
the `['open','resolved','dismissed']` whitelist (modelled by taking an
`AlertStatus`).  The `UPDATE` filters only on `id` and `org_id`: there is no
guard on the alert's current status.  Returns `false` for the 404 case. -/
def patchMergeAlert (db : DB) (org userId alertId : Nat) (st : AlertStatus)
    (now : Nat) : DB × Bool :=
  if db.merge_alerts.any (fun a => decide (a.id = alertId ∧ a.org_id = org)) then
    ({ db with
       merge_alerts := db.merge_alerts.map (fun a =>
         if a.id = alertId ∧ a.org_id = org then
           { a with status := st, updated_at := now }
         else a)
       audit_logs := db.audit_logs ++ [⟨"merge_alert.update", userId, org⟩] }, true)
  else (db, false)

/-- The phone-match detection `INSERT ... SELECT ... ON CONFLICT (org_id,
lead_voter_id, imported_voter_id) DO NOTHING` shared by voter create and
voter update: for every `import`-sourced voter of the tenant whose stored
phone equals `p` exactly, insert an `open` alert for `(leadId, that voter)`
unless an alert for the pair already exists in any status. -/
def detectStep (org leadId now : Nat) (acc : DB) (iv : Voter) : DB :=
  if acc.merge_alerts.any (fun a =>
      decide (a.org_id = org ∧ a.lead_voter_id = leadId ∧
              a.imported_voter_id = iv.id)) then acc
  else
    { acc with
      merge_alerts := acc.merge_alerts ++
        [⟨acc.nextId, org, leadId, iv.id, "phone_match", .opened, now, now⟩]
      nextId := acc.nextId + 1 }

def detectPhoneAlerts (db : DB) (org leadId : Nat) (p : String) (now : Nat) : DB :=
  let ivMatches := db.voters.filter (fun iv =>
    decide (iv.org_id = org ∧ iv.source = .imported ∧ iv.phone = some p))
  ivMatches.foldl (detectStep org leadId now) db

/-- Request body of `POST /api/v1/voters` (absent keys are `none`). -/
structure NewVoterBody where
  externalId : Option String := none
  firstName : Option String := none
  middleName : Option String := none
  lastName : Option String := none
  suffix : Option String := none
  age : Option Int := none
  gender : Option String := none
  race : Option String := none
  party : Option String := none
  phone : Option String := none
  address : Option String := none
  unit : Option String := none
  city : Option String := none
  state : Option String := none
  zip : Option String := none
  geomLat : Option ℚ := none
  geomLng : Option ℚ := none
  deriving DecidableEq, Repr

/-- `POST /api/v1/voters`: manual adds are leads (`source = 'manual'`), with
`v.x || null` / `v.x || ""` coercions as in the handler; the stored phone is
the raw value, while detection runs on the trimmed phone when it is
non-empty.  Returns the new voter id. -/
def createVoter (db : DB) (org : Nat) (b : NewVoterBody) (now : Nat) :
    DB × Nat :=
  let vid := db.nextId
  let v : Voter :=
    { id := vid
      org_id := org
      external_id := jsOrNull b.externalId
      source := .manual
      merged_into_voter_id := none
      first_name := jsOrD b.firstName ""
      middle_name := jsOrNull b.middleName
      last_name := jsOrD b.lastName ""
      suffix := jsOrNull b.suffix
      age := jsIntTruthy b.age
      gender := jsOrNull b.gender
      race := jsOrNull b.race
      party := jsOrNull b.party
      phone := jsOrNull b.phone
      address := jsOrD b.address ""
      unit := jsOrNull b.unit
      city := jsOrD b.city ""
      state := jsOrNull b.state
      zip := jsOrD b.zip ""
      geom_lat := b.geomLat
      geom_lng := b.geomLng
      created_at := now
      updated_at := now }
  let db1 := { db with voters := db.voters ++ [v], nextId := vid + 1 }
  let db2 := match b.phone with
    | some p => if jsTrim p = "" then db1
        else detectPhoneAlerts db1 org vid (jsTrim p) now
    | none => db1
  (db2, vid)

/-- Request body of `PATCH /api/v1/voters/:id` (absent keys are `none`;
`undefined` values are skipped by the handler's field loop). -/
structure PatchVoterBody where
  externalId : Option String := none
  firstName : Option String := none
  middleName : Option String := none
  lastName : Option String := none
  suffix : Option String := none
  age : Option Int := none
  gender : Option String := none
  race : Option String := none
  party : Option String := none
  phone : Option String := none
  address : Option String := none
  unit : Option String := none
  city : Option String := none
  state : Option String := none
  zip : Option String := none
  geomLat : Option ℚ := none
  geomLng : Option ℚ := none
  deriving DecidableEq, Repr

/-- Does the PATCH body provide at least one applicable field?  (The
`external_id` field only counts for `manual`-sourced voters — the loop
`continue`s over it otherwise.) -/
def patchHasField (src : Source) (b : PatchVoterBody) : Bool :=
  (decide (src = .manual) && b.externalId.isSome) || b.firstName.isSome ||
  b.middleName.isSome || b.lastName.isSome || b.suffix.isSome ||
  b.age.isSome || b.gender.isSome || b.race.isSome || b.party.isSome ||
  b.phone.isSome || b.address.isSome || b.unit.isSome || b.city.isSome ||
  b.state.isSome || b.zip.isSome || b.geomLat.isSome || b.geomLng.isSome

/-- An empty-string PATCH value is pushed as SQL NULL; on a `NOT NULL` column
that makes the single `UPDATE` statement fail, so nothing is written. -/
def patchNotNullViolation (b : PatchVoterBody) : Bool :=
  b.firstName == some "" || b.lastName == some "" || b.address == some "" ||
  b.city == some "" || b.zip == some ""

/-- Apply the PATCH field loop to a voter row: a present value overwrites the
column (empty string as NULL on nullable columns); `source` and
`merged_into_voter_id` are intentionally not in the field list. -/
def applyPatch (v : Voter) (b : PatchVoterBody) (now : Nat) : Voter :=
  { v with
    external_id := if v.source = .manual then
        (match b.externalId with
         | some s => jsOrNull (some s)
         | none => v.external_id)
      else v.external_id
    first_name := b.firstName.getD v.first_name
    middle_name := match b.middleName with
      | some s => jsOrNull (some s)
      | none => v.middle_name
    last_name := b.lastName.getD v.last_name
    suffix := match b.suffix with
      | some s => jsOrNull (some s)
      | none => v.suffix
    age := match b.age with
      | some a => some a
      | none => v.age
    gender := match b.gender with
      | some s => jsOrNull (some s)
      | none => v.gender
    race := match b.race with
      | some s => jsOrNull (some s)
      | none => v.race
    party := match b.party with
      | some s => jsOrNull (some s)
      | none => v.party
    phone := match b.phone with
      | some s => jsOrNull (some s)
      | none => v.phone
    address := b.address.getD v.address
    unit := match b.unit with
      | some s => jsOrNull (some s)
      | none => v.unit
    city := b.city.getD v.city
    state := match b.state with
      | some s => jsOrNull (some s)
      | none => v.state
    zip := b.zip.getD v.zip
    geom_lat := match b.geomLat with
      | some q => some q
      | none => v.geom_lat
    geom_lng := match b.geomLng with
      | some q => some q
      | none => v.geom_lng
    updated_at := now }

/-- `PATCH /api/v1/voters/:id`: 404 when the voter is not in the tenant; ok
without any write when no applicable field is provided; otherwise update the
controlled field set (never `source` or `merged_into_voter_id`), write an
audit record, and — when the voter is a `manual` lead and the body set a
phone whose trimmed value is non-empty — run phone-match detection. -/
def patchVoter (db : DB) (org userId vid : Nat) (b : PatchVoterBody)
    (now : Nat) : DB :=
  match findVoter db org vid with
  | none => db
  | some v0 =>
    if ¬ patchHasField v0.source b then db
    else if patchNotNullViolation b then db
    else
      let db1 := { db with
        voters := db.voters.map (fun v =>
          if v.id = vid ∧ v.org_id = org then applyPatch v b now else v)
        audit_logs := db.audit_logs ++ [⟨"voter.update", userId, org⟩] }
      match b.phone with
      | some p =>
        if v0.source = .manual ∧ jsTrim p ≠ "" then
          detectPhoneAlerts db1 org vid (jsTrim p) now
        else db1
      | none => db1

/-! ## Tenant-scoped reads (`src/app.ts`) -/

/-- `GET /api/v1/jobs/:id`: `WHERE id = $1 AND org_id = $2`. -/
def getJob (db : DB) (org jid : Nat) : Option ImportJobRow :=
  db.import_jobs.find? (fun j => decide (j.id = jid ∧ j.org_id = org))

/-- `GET /api/v1/voters/:id`: `WHERE id = $1 AND org_id = $2`. -/
def getVoter (db : DB) (org vid : Nat) : Option Voter :=
  findVoter db org vid

/-- Case-insensitive `ILIKE '%q%'` match. -/
def ilikeContains (s q : String) : Bool :=
  strIncludes (jsToUpper s) (jsToUpper q)

/-- `GET /api/v1/voters`: tenant filter, optional name/address search,
`ORDER BY last_name, first_name`, `LIMIT`/`OFFSET`.  The last-interaction
`LEFT JOIN` is `DISTINCT ON (voter_id)` and only decorates rows, so the
returned voter rows are exactly these. -/
def listVoters (db : DB) (org : Nat) (q : Option String) (lim off : Nat) :
    List Voter :=
  let base := db.voters.filter (fun v =>
    decide (v.org_id = org) &&
    (match q with
     | some qq => ilikeContains v.first_name qq || ilikeContains v.last_name qq ||
         ilikeContains v.address qq
     | none => true))
  ((base.mergeSort (fun a b =>
      a.last_name < b.last_name ||
      (a.last_name == b.last_name && a.first_name ≤ b.first_name))).drop off).take lim

/-- `GET /api/v1/merge-alerts`: tenant + status filter, inner joins on the
two voter rows of the pair (same tenant), newest first, `LIMIT 200`. -/
def listMergeAlerts (db : DB) (org : Nat) (st : AlertStatus) : List MergeAlert :=
  let base := db.merge_alerts.filter (fun a =>
    decide (a.org_id = org ∧ a.status = st) &&
    db.voters.any (fun v => decide (v.id = a.lead_voter_id ∧ v.org_id = a.org_id)) &&
    db.voters.any (fun v => decide (v.id = a.imported_voter_id ∧ v.org_id = a.org_id)))
  (base.mergeSort (fun a b => decide (b.created_at ≤ a.created_at))).take 200

/-- `GET /api/v1/merge-alerts/count`: open alerts of the tenant. -/
def countOpenAlerts (db : DB) (org : Nat) : Nat :=
  (db.merge_alerts.filter (fun a =>
    decide (a.org_id = org ∧ a.status = .opened))).length

/-! ## Shared helper lemmas -/

/-- Boolean membership and propositional membership agree. -/
theorem containsToMem {l : List String} {a : String} (h : l.contains a = true) :
    a ∈ l := by
  simpa using h

/-- `find?` commutes with a `map` whose function preserves the predicate. -/
theorem find?_map_pres {α : Type} (g : α → α) (p : α → Bool)
    (hp : ∀ a, p (g a) = p a) :
    ∀ l : List α, (l.map g).find? p = (l.find? p).map g := by
  intro l
  induction l with
  | nil => rfl
  | cons a t ih =>
    simp only [List.map_cons, List.find?_cons, hp a]
    cases hpa : p a
    · exact ih
    · rfl

/-- `countP` is stable under a `map` whose function preserves the predicate. -/
theorem countP_map_pres {α : Type} (g : α → α) (p : α → Bool)
    (hp : ∀ a, p (g a) = p a) (l : List α) :
    (l.map g).countP p = l.countP p := by
  rw [List.countP_map]
  induction l with
  | nil => rfl
  | cons a t ih => simp [List.countP_cons, ih, hp a]

/-- The `source` column of every voter row, in store order. -/
def sourcesOf (l : List Voter) : List Source := l.map Voter.source

theorem sourcesOf_map_pres (g : Voter → Voter)
    (hg : ∀ v, (g v).source = v.source) (l : List Voter) :
    sourcesOf (l.map g) = sourcesOf l := by
  unfold sourcesOf
  rw [List.map_map]
  exact List.map_congr_left (fun a _ => hg a)

/-- A successful ordered synonym lookup comes from a table entry containing
the token. -/
theorem lookupSyn_some {h : String} {table : List (List String × VoterField)}
    {f : VoterField} (hl : lookupSyn h table = some f) :
    ∃ e ∈ table, e.2 = f ∧ e.1.contains h = true := by
  unfold lookupSyn at hl
  cases hfind : table.find? (fun e => e.1.contains h) with
  | none => rw [hfind] at hl; exact Option.noConfusion hl
  | some e =>
    rw [hfind] at hl
    have hp := List.find?_some hfind
    exact ⟨e, List.mem_of_find?_eq_some hfind, Option.some.inj hl, hp⟩

/-- A token contained in no table list looks up to nothing. -/
theorem lookupSyn_none {h : String} {table : List (List String × VoterField)}
    (hall : ∀ e ∈ table, e.1.contains h = false) :
    lookupSyn h table = none := by
  unfold lookupSyn
  have hfind : table.find? (fun e => e.1.contains h) = none := by
    rw [List.find?_eq_none]
    intro e he hx
    have hx' : e.1.contains h = true := hx
    rw [hall e he] at hx'
    exact Bool.false_ne_true hx'
  rw [hfind]
  rfl

/-! ## C6 — header matching: exact synonym lookup vs the phone substring test -/

/-- C6 counterexample: the header `TELEPHONE` (cleaned token `TELEPHONE`)
appears in no enumerated synonym list, yet `mapHeaderToField` maps it to the
phone field via the `h.includes('PHONE')` substring test — refuting "a header
maps to a canonical field only when its cleaned token is literally one of
that field's enumerated synonyms (no substring matching)". -/
theorem c6_counterexample :
    mapHeaderToField "TELEPHONE" = some VoterField.phone ∧
    normalizeToken "TELEPHONE" ∉ allSynonyms := by
  decide

/-- C6 (amended): matching is exact against the closed synonym lists for
every canonical field except phone; the phone field alone is matched by
substring containment of `PHONE` / `MOBILE` / `CELL` in the cleaned token;
a header that matches neither an enumerated list nor the phone substring
test maps to `none`. -/
theorem c6_header_matching (h : String) :
    (∀ f : VoterField, mapHeaderToField h = some f → f ≠ .phone →
      normalizeToken h ∈ synonymsOf f) ∧
    (mapHeaderToField h = some .phone →
      phoneSubstringMatch (normalizeToken h) = true) ∧
    (normalizeToken h ∉ allSynonyms →
      phoneSubstringMatch (normalizeToken h) = false →
      mapHeaderToField h = none) := by
  unfold mapHeaderToField
  generalize normalizeToken h = t
  have consistent : ∀ e ∈ synTableA ++ synTableB, e.1 = synonymsOf e.2 := by decide
  have nophone : ∀ e ∈ synTableA ++ synTableB, e.2 ≠ VoterField.phone := by decide
  have sub : ∀ e ∈ synTableA ++ synTableB,
      e.1.all (fun x => allSynonyms.contains x) = true := by decide
  refine ⟨?_, ?_, ?_⟩
  · intro f hf hnp
    unfold mapToken at hf
    cases hA : lookupSyn t synTableA with
    | some g =>
      rw [hA] at hf
      have hf' : some g = some f := hf
      obtain ⟨e, he, hef, hec⟩ := lookupSyn_some hA
      have h1 : t ∈ e.1 := containsToMem hec
      rw [consistent e (List.mem_append_left _ he), hef, Option.some.inj hf'] at h1
      exact h1
    | none =>
      rw [hA] at hf
      have hf' : (if phoneSubstringMatch t = true then some VoterField.phone
          else lookupSyn t synTableB) = some f := hf
      by_cases hp : phoneSubstringMatch t = true
      · rw [if_pos hp] at hf'
        exact absurd (Option.some.inj hf').symm hnp
      · rw [if_neg hp] at hf'
        obtain ⟨e, he, hef, hec⟩ := lookupSyn_some hf'
        have h1 : t ∈ e.1 := containsToMem hec
        rw [consistent e (List.mem_append_right _ he), hef] at h1
        exact h1
  · intro hf
    unfold mapToken at hf
    cases hA : lookupSyn t synTableA with
    | some g =>
      rw [hA] at hf
      have hf' : some g = some VoterField.phone := hf
      obtain ⟨e, he, hef, _⟩ := lookupSyn_some hA
      exact absurd (hef.trans (Option.some.inj hf'))
        (nophone e (List.mem_append_left _ he))
    | none =>
      rw [hA] at hf
      have hf' : (if phoneSubstringMatch t = true then some VoterField.phone
          else lookupSyn t synTableB) = some VoterField.phone := hf
      by_cases hp : phoneSubstringMatch t = true
      · exact hp
      · rw [if_neg hp] at hf'
        obtain ⟨e, he, hef, _⟩ := lookupSyn_some hf'
        exact absurd hef (nophone e (List.mem_append_right _ he))
  · intro hmem hsub
    have hall : ∀ e ∈ synTableA ++ synTableB, e.1.contains t = false := by
      intro e he
      cases hc : e.1.contains t with
      | false => rfl
      | true =>
        exact absurd
          (containsToMem (List.all_eq_true.mp (sub e he) t (containsToMem hc)))
          hmem
    have hA' := lookupSyn_none (fun e he => hall e (List.mem_append_left _ he))
    have hB' := lookupSyn_none (fun e he => hall e (List.mem_append_right _ he))
    unfold mapToken
    rw [hA']
    show (if phoneSubstringMatch t = true then some VoterField.phone
      else lookupSyn t synTableB) = none
    rw [if_neg (by simp [hsub])]
    exact hB'

/-- C6 witness: concrete headers exercising all three parts of
`c6_header_matching`. -/
theorem c6_header_matching_witness :
    normalizeToken "FNAME" ∈ synonymsOf VoterField.first_name ∧
    phoneSubstringMatch (normalizeToken "CELLCOUNT") = true ∧
    mapHeaderToField "ZZZUNKNOWN" = none :=
  ⟨(c6_header_matching "FNAME").1 VoterField.first_name (by decide) (by decide),
   (c6_header_matching "CELLCOUNT").2.1 (by decide),
   (c6_header_matching "ZZZUNKNOWN").2.2 (by decide) (by decide)⟩

/-! ## C7 — the comma-split pipeline on the spec's sample headers -/

/-- C7 counterexample: both residential headers clean to the token
`RESIDENTIALADDRESS`, which is in no synonym list (the address bucket has
`RESIDENCEADDRESS`, not `RESIDENTIALADDRESS`), so neither header maps to any
canonical field — they map to `none`, refuting "maps ... to the same
canonical field". -/
theorem c7_counterexample :
    mapHeaderToField (cleanLouisianaHeader "RESIDENTIAL ADDRESS, LINE 1") = none ∧
    mapHeaderToField (cleanLouisianaHeader "RESIDENTIAL ADDRESS") = none := by
  decide

/-- C7 (amended): the two residential headers are cut at the first comma to
the same cleaned header and therefore to the same lookup result — which is
`none`, not an actual field; `PHONE NUMBER` maps to the phone field and
`RANDOM UNKNOWN COLUMN` maps to nothing. -/
theorem c7_header_pipeline :
    cleanLouisianaHeader "RESIDENTIAL ADDRESS, LINE 1" =
      cleanLouisianaHeader "RESIDENTIAL ADDRESS" ∧
    mapHeaderToField (cleanLouisianaHeader "RESIDENTIAL ADDRESS, LINE 1") =
      mapHeaderToField (cleanLouisianaHeader "RESIDENTIAL ADDRESS") ∧
    mapHeaderToField (cleanLouisianaHeader "PHONE NUMBER") =
      some VoterField.phone ∧
    mapHeaderToField (cleanLouisianaHeader "RANDOM UNKNOWN COLUMN") = none := by
  decide

/-! ## Concrete fixtures -/

/-- A voter row with every column at its blandest value; fixtures override
the fields they care about. -/
def baseVoter : Voter where
  id := 0
  org_id := 0
  external_id := none
  source := Source.manual
  merged_into_voter_id := none
  first_name := ""
  middle_name := none
  last_name := ""
  suffix := none
  age := none
  gender := none
  race := none
  party := none
  phone := none
  address := ""
  unit := none
  city := ""
  state := none
  zip := ""
  geom_lat := none
  geom_lng := none
  created_at := 0
  updated_at := 0

/-- The empty tenant store. -/
def emptyDB : DB where
  voters := []
  import_jobs := []
  merge_alerts := []
  interactions := []
  list_members := []
  platform_events := []
  audit_logs := []
  nextId := 100

/-- A `Math.random()` oracle that always draws 0. -/
def zeroJitter : Nat → ℚ × ℚ := fun _ => (0, 0)

/-- Tenant 0 with a lead already merged into voter 2, two imported voters
and an unmerged lead. -/
def mergeDemoDB : DB :=
  { emptyDB with voters :=
    [{ baseVoter with
       id := 1
       source := Source.manual
       merged_into_voter_id := some 2
       phone := some "555" },
     { baseVoter with id := 2, source := Source.imported, external_id := some "X2" },
     { baseVoter with id := 3, source := Source.imported, external_id := some "X3" },
     { baseVoter with id := 4, source := Source.manual }] }

/-! ## C1 — merge validation and idempotent retry -/

/-- C1 counterexample: voter 1 is a manual lead already merged into imported
voter 2; the claim says a merge request towards a *different* target (voter
3) must fail and change nothing.  The endpoint has no such check: the call
succeeds and re-points `merged_into_voter_id` from 2 to 3. -/
theorem c1_counterexample :
    (mergeVoters mergeDemoDB 0 9 1 3 50).2 = MergeOutcome.merged 0 0 ∧
    (mergeVoters mergeDemoDB 0 9 1 3 50).1.voters.map
      (fun v => v.merged_into_voter_id) = [some 3, none, none, none] ∧
    mergeDemoDB.voters.map (fun v => v.merged_into_voter_id) =
      [some 2, none, none, none] := by
  decide

/-- C1 (amended): a merge fails with no change to any row when the lead or
target is missing in the tenant, the lead is not `manual`-sourced, or the
target is not `import`-sourced; merging a lead into the exact target it is
already merged into is a no-op success (`idempotent`).  A lead already merged
into a *different* target is, however, not rejected: the endpoint re-merges
it (see the counterexample). -/
theorem c1_merge_validation (db : DB) (org userId leadId importedId now : Nat) :
    ((findVoter db org leadId = none ∨ findVoter db org importedId = none ∨
      (∀ lv, findVoter db org leadId = some lv → lv.source ≠ Source.manual) ∨
      (∀ tv, findVoter db org importedId = some tv → tv.source ≠ Source.imported)) →
      (mergeVoters db org userId leadId importedId now).1 = db ∧
      ((mergeVoters db org userId leadId importedId now).2 = MergeOutcome.notFound ∨
       (mergeVoters db org userId leadId importedId now).2 = MergeOutcome.leadNotManual ∨
       (mergeVoters db org userId leadId importedId now).2 = MergeOutcome.targetNotImported)) ∧
    (∀ lv tv, findVoter db org leadId = some lv →
      findVoter db org importedId = some tv →
      lv.source = Source.manual → tv.source = Source.imported →
      lv.merged_into_voter_id = some importedId →
      mergeVoters db org userId leadId importedId now = (db, MergeOutcome.idempotent)) := by
  constructor
  · intro hbad
    cases hL : findVoter db org leadId with
    | none =>
      unfold mergeVoters
      simp [hL]
    | some lv =>
      cases hT : findVoter db org importedId with
      | none =>
        unfold mergeVoters
        simp [hL, hT]
      | some tv =>
        have hsrc : lv.source ≠ Source.manual ∨ tv.source ≠ Source.imported := by
          rcases hbad with h | h | h | h
          · rw [h] at hL; exact Option.noConfusion hL
          · rw [h] at hT; exact Option.noConfusion hT
          · exact Or.inl (h lv hL)
          · exact Or.inr (h tv hT)
        unfold mergeVoters
        simp only [hL, hT]
        by_cases hm : lv.source ≠ Source.manual
        · rw [if_pos hm]
          exact ⟨rfl, Or.inr (Or.inl rfl)⟩
        · rcases hsrc with h | h
          · exact absurd h hm
          · rw [if_neg hm, if_pos h]
            exact ⟨rfl, Or.inr (Or.inr rfl)⟩
  · intro lv tv hL hT hlm htm hmi
    unfold mergeVoters
    simp only [hL, hT]
    rw [if_neg (by simp [hlm]), if_neg (by simp [htm]), if_pos hmi]

/-- C1 witness: a missing lead id fails without effect; re-merging lead 1
into its existing target 2 is an idempotent no-op. -/
theorem c1_merge_validation_witness :
    ((mergeVoters mergeDemoDB 0 9 77 2 50).1 = mergeDemoDB ∧
      ((mergeVoters mergeDemoDB 0 9 77 2 50).2 = MergeOutcome.notFound ∨
       (mergeVoters mergeDemoDB 0 9 77 2 50).2 = MergeOutcome.leadNotManual ∨
       (mergeVoters mergeDemoDB 0 9 77 2 50).2 = MergeOutcome.targetNotImported)) ∧
    mergeVoters mergeDemoDB 0 9 1 2 50 = (mergeDemoDB, MergeOutcome.idempotent) :=
  ⟨(c1_merge_validation mergeDemoDB 0 9 77 2 50).1 (Or.inl (by decide)),
   (c1_merge_validation mergeDemoDB 0 9 1 2 50).2
     { baseVoter with
       id := 1
       source := Source.manual
       merged_into_voter_id := some 2
       phone := some "555" }
     { baseVoter with id := 2, source := Source.imported, external_id := some "X2" }
     (by decide) (by decide) (by decide) (by decide) (by decide)⟩

/-! ## C10 — frame property of the merge rewire path -/

/-- C10: on the non-idempotent success path of a merge, the voter store
becomes exactly the old store with the lead row's `merged_into_voter_id` and
`updated_at` overwritten — every other column of the lead and every other
voter row (in particular the imported target, whose row the condition never
selects since its source differs from the lead's) are byte-identical. -/
theorem c10_merge_rewire_frame (db : DB) (org userId leadId importedId now : Nat)
    (lv tv : Voter) (hL : findVoter db org leadId = some lv)
    (hT : findVoter db org importedId = some tv)
    (hlm : lv.source = Source.manual) (htm : tv.source = Source.imported)
    (hni : lv.merged_into_voter_id ≠ some importedId) :
    (mergeVoters db org userId leadId importedId now).1.voters =
      db.voters.map (fun v =>
        if v.id = leadId ∧ v.org_id = org then
          { v with merged_into_voter_id := some importedId, updated_at := now }
        else v) ∧
    ∀ v ∈ db.voters, ¬(v.id = leadId ∧ v.org_id = org) →
      v ∈ (mergeVoters db org userId leadId importedId now).1.voters := by
  have hv : (mergeVoters db org userId leadId importedId now).1.voters =
      db.voters.map (fun v =>
        if v.id = leadId ∧ v.org_id = org then
          { v with merged_into_voter_id := some importedId, updated_at := now }
        else v) := by
    unfold mergeVoters
    simp only [hL, hT]
    rw [if_neg (by simp [hlm]), if_neg (by simp [htm]), if_neg hni]
  refine ⟨hv, ?_⟩
  intro v hvmem hnot
  rw [hv]
  exact List.mem_map.mpr ⟨v, hvmem, by rw [if_neg hnot]⟩

/-- C10 witness: merging the unmerged lead 4 into imported voter 2 in the
demo tenant rewires exactly the lead row. -/
theorem c10_merge_rewire_frame_witness :
    (mergeVoters mergeDemoDB 0 9 4 2 50).1.voters =
      mergeDemoDB.voters.map (fun v =>
        if v.id = 4 ∧ v.org_id = 0 then
          { v with merged_into_voter_id := some 2, updated_at := 50 }
        else v) :=
  (c10_merge_rewire_frame mergeDemoDB 0 9 4 2 50
    { baseVoter with id := 4, source := Source.manual }
    { baseVoter with id := 2, source := Source.imported, external_id := some "X2" }
    (by decide) (by decide) (by decide) (by decide) (by decide)).1

/-! ## C5 — merge-alert terminality and duplicate suppression -/

/-- Tenant 0 with a manual lead 1 and imported voter 2 sharing phone `555`,
and an already `resolved` alert for the pair. -/
def alertDemoDB : DB :=
  { emptyDB with
    voters :=
      [{ baseVoter with id := 1, source := Source.manual, phone := some "555" },
       { baseVoter with
         id := 2
         source := Source.imported
         external_id := some "X2"
         phone := some "555" }]
    merge_alerts :=
      [{ id := 7, org_id := 0, lead_voter_id := 1, imported_voter_id := 2,
         reason := "phone_match", status := AlertStatus.resolved,
         created_at := 0, updated_at := 0 }] }

/-- C5 counterexample: the admin PATCH endpoint has no guard on the current
status — it sets the already-`resolved` alert 7 back to `open`, so a terminal
status is not final "through any operation". -/
theorem c5_counterexample :
    alertDemoDB.merge_alerts.map (fun a => a.status) = [AlertStatus.resolved] ∧
    (patchMergeAlert alertDemoDB 0 9 7 AlertStatus.opened 50).2 = true ∧
    (patchMergeAlert alertDemoDB 0 9 7 AlertStatus.opened 50).1.merge_alerts.map
      (fun a => a.status) = [AlertStatus.opened] := by
  decide

/-- Number of alert rows for one `(org, lead, imported)` pair — the target of
the `UNIQUE(org_id, lead_voter_id, imported_voter_id)` constraint. -/
def pairCount (alerts : List MergeAlert) (org leadId ivId : Nat) : Nat :=
  alerts.countP (fun b =>
    decide (b.org_id = org ∧ b.lead_voter_id = leadId ∧
            b.imported_voter_id = ivId))

/-- The detection fold only appends alerts, and only for pairs that had no
alert row yet (in any status). -/
theorem detectFold_alerts (org leadId now : Nat) (ivs : List Voter) :
    ∀ acc : DB,
      ∃ tail, (ivs.foldl (detectStep org leadId now) acc).merge_alerts =
          acc.merge_alerts ++ tail ∧
        ∀ a ∈ tail, pairCount acc.merge_alerts org leadId a.imported_voter_id = 0 := by
  induction ivs with
  | nil =>
    intro acc
    exact ⟨[], (List.append_nil _).symm, by simp⟩
  | cons iv rest ih =>
    intro acc
    rw [List.foldl_cons]
    by_cases hany : acc.merge_alerts.any (fun a =>
        decide (a.org_id = org ∧ a.lead_voter_id = leadId ∧
                a.imported_voter_id = iv.id)) = true
    · rw [show detectStep org leadId now acc iv = acc from by
        unfold detectStep; rw [if_pos hany]]
      exact ih acc
    · have hnone : ∀ b ∈ acc.merge_alerts,
          ¬(b.org_id = org ∧ b.lead_voter_id = leadId ∧
            b.imported_voter_id = iv.id) := by
        intro b hb hcontra
        exact hany (List.any_eq_true.mpr ⟨b, hb, decide_eq_true hcontra⟩)
      rw [show detectStep org leadId now acc iv =
          { acc with
            merge_alerts := acc.merge_alerts ++
              [⟨acc.nextId, org, leadId, iv.id, "phone_match",
                AlertStatus.opened, now, now⟩]
            nextId := acc.nextId + 1 } from by
        unfold detectStep; rw [if_neg hany]]
      obtain ⟨tail, ht, htp⟩ := ih _
      refine ⟨⟨acc.nextId, org, leadId, iv.id, "phone_match",
        AlertStatus.opened, now, now⟩ :: tail, ?_, ?_⟩
      · rw [ht]
        simp
      · intro a ha
        rcases List.mem_cons.mp ha with rfl | ha'
        · exact List.countP_eq_zero.mpr
            (fun b hb => by simpa using hnone b hb)
        · have h0 := htp a ha'
          unfold pairCount at h0 ⊢
          rw [List.countP_append] at h0
          exact Nat.eq_zero_of_add_eq_zero_right h0

/-- C5 (amended): terminal alert statuses are final with respect to the
*detection* path and the *merge* path — a detection event only ever appends
alert rows, and only for `(lead, imported)` pairs that have no alert row in
any status (so no second alert and no status reset for an existing pair);
the merge operation either leaves the alert table unchanged or resolves
exactly the `open` alerts of the merged pair.  The admin PATCH endpoint,
however, can set any existing alert — including a `resolved` or `dismissed`
one — to any of the three statuses (see the counterexample). -/
theorem c5_alert_terminality (db : DB) (org leadId : Nat) (p : String)
    (userId lId iId now : Nat) :
    (∃ tail, (detectPhoneAlerts db org leadId p now).merge_alerts =
        db.merge_alerts ++ tail ∧
      ∀ a ∈ tail, pairCount db.merge_alerts org leadId a.imported_voter_id = 0) ∧
    ((mergeVoters db org userId lId iId now).1.merge_alerts = db.merge_alerts ∨
     (mergeVoters db org userId lId iId now).1.merge_alerts =
       db.merge_alerts.map (fun a =>
         if a.org_id = org ∧ a.lead_voter_id = lId ∧
            a.imported_voter_id = iId ∧ a.status = AlertStatus.opened then
           { a with status := AlertStatus.resolved, updated_at := now }
         else a)) := by
  constructor
  · exact detectFold_alerts org leadId now _ db
  · cases hL : findVoter db org lId with
    | none =>
      unfold mergeVoters
      simp [hL]
    | some lv =>
      cases hT : findVoter db org iId with
      | none =>
        unfold mergeVoters
        simp [hL, hT]
      | some tv =>
        unfold mergeVoters
        simp only [hL, hT]
        by_cases h1 : lv.source ≠ Source.manual
        · rw [if_pos h1]
          exact Or.inl rfl
        · rw [if_neg h1]
          by_cases h2 : tv.source ≠ Source.imported
          · rw [if_pos h2]
            exact Or.inl rfl
          · rw [if_neg h2]
            by_cases h3 : lv.merged_into_voter_id = some iId
            · rw [if_pos h3]
              exact Or.inl rfl
            · rw [if_neg h3]
              exact Or.inr rfl

/-- C5 witness: a fresh detection event for the already-alerted pair (lead 1,
imported 2) and a merge request for the same pair, on the demo tenant. -/
theorem c5_alert_terminality_witness :
    (∃ tail, (detectPhoneAlerts alertDemoDB 0 1 "555" 60).merge_alerts =
        alertDemoDB.merge_alerts ++ tail ∧
      ∀ a ∈ tail, pairCount alertDemoDB.merge_alerts 0 1 a.imported_voter_id = 0) ∧
    ((mergeVoters alertDemoDB 0 9 1 2 60).1.merge_alerts = alertDemoDB.merge_alerts ∨
     (mergeVoters alertDemoDB 0 9 1 2 60).1.merge_alerts =
       alertDemoDB.merge_alerts.map (fun a =>
         if a.org_id = 0 ∧ a.lead_voter_id = 1 ∧
            a.imported_voter_id = 2 ∧ a.status = AlertStatus.opened then
           { a with status := AlertStatus.resolved, updated_at := 60 }
         else a)) :=
  c5_alert_terminality alertDemoDB 0 1 "555" 9 1 2 60

/-! ## C3 — import-job status transitions are unguarded -/

/-- Tenant 0 with one `completed` and one `failed` import job. -/
def jobsDemoDB : DB :=
  { emptyDB with import_jobs :=
    [{ id := 10, org_id := 0, user_id := 9, status := JobStatus.completed,
       file_key := none, result := some ⟨1, 0, 1⟩, error := none,
       progress := none, created_at := 0, updated_at := 0 },
     { id := 11, org_id := 0, user_id := 9, status := JobStatus.failed,
       file_key := none, result := none, error := some "boom",
       progress := none, created_at := 0, updated_at := 0 }] }

/-- C3 counterexample: both status UPDATEs of the orchestrator filter only on
`id` and `org_id`, so a redelivered execution moves a job *out of a terminal
state*: a failing re-execution turns the `completed` job 10 into `failed`,
and a successful re-execution turns the `failed` job 11 into `completed`. -/
theorem c3_counterexample :
    (getJob jobsDemoDB 0 10).map (fun j => j.status) = some JobStatus.completed ∧
    (getJob (processImportJobOnError jobsDemoDB 10 0 9 "fetch failed" 60) 0 10).map
      (fun j => j.status) = some JobStatus.failed ∧
    (getJob jobsDemoDB 0 11).map (fun j => j.status) = some JobStatus.failed ∧
    (getJob (processImportJob jobsDemoDB 11 0 9 [] zeroJitter 60) 0 11).map
      (fun j => j.status) = some JobStatus.completed := by
  decide

/-- A conditional per-key update of the jobs table is looked up by the same
key: the found row is the updated one. -/
theorem getJob_condMap (jobs : List ImportJobRow) (jobId org : Nat)
    (upd : ImportJobRow → ImportJobRow) (j : ImportJobRow)
    (hfind : jobs.find? (fun x => decide (x.id = jobId ∧ x.org_id = org)) = some j)
    (hid : ∀ x, (upd x).id = x.id) (horg : ∀ x, (upd x).org_id = x.org_id) :
    (jobs.map (fun x => if x.id = jobId ∧ x.org_id = org then upd x else x)).find?
      (fun x => decide (x.id = jobId ∧ x.org_id = org)) =
      some (if j.id = jobId ∧ j.org_id = org then upd j else j) := by
  rw [find?_map_pres _ _ ?_ jobs, hfind]
  · rfl
  · intro a
    by_cases hca : a.id = jobId ∧ a.org_id = org
    · simp [hca, hid a, horg a]
    · simp [hca]

/-- C3 (amended): within one execution the orchestrator drives a job
`processing` → `completed` (success) or `failed` (exception), but the status
writes carry no guard on the current status: they apply to a job in *any*
state, including terminal ones.  Hence for every existing job — whatever its
status, `completed` and `failed` included — a (re)execution of the
orchestrator on its id sets `completed` on success and `failed` on failure;
terminal states are not protected against redelivered executions. -/
theorem c3_status_unguarded (db : DB) (jobId org userId : Nat)
    (rows : List ImportRow) (rnd : Nat → ℚ × ℚ) (errMsg : String) (now : Nat)
    (j : ImportJobRow) (hj : getJob db org jobId = some j) :
    (getJob (processImportJob db jobId org userId rows rnd now) org jobId).map
      (fun x => x.status) = some JobStatus.completed ∧
    (getJob (processImportJobOnError db jobId org userId errMsg now) org jobId).map
      (fun x => x.status) = some JobStatus.failed := by
  have hj' : db.import_jobs.find?
      (fun x => decide (x.id = jobId ∧ x.org_id = org)) = some j := hj
  have hdec := List.find?_some hj'
  have hcond : j.id = jobId ∧ j.org_id = org := of_decide_eq_true hdec
  constructor
  · have key := getJob_condMap db.import_jobs jobId org
      (fun x =>
        { x with
          status := JobStatus.completed
          result := some ⟨(foldRows org rnd now ⟨db.voters, db.nextId, 0, 0⟩ 0 rows).importedCount,
                          (foldRows org rnd now ⟨db.voters, db.nextId, 0, 0⟩ 0 rows).skipped,
                          rows.length⟩
          progress := some ⟨"finalizing",
            (foldRows org rnd now ⟨db.voters, db.nextId, 0, 0⟩ 0 rows).importedCount,
            some rows.length⟩
          updated_at := now })
      j hj' (fun _ => rfl) (fun _ => rfl)
    have hg : getJob (processImportJob db jobId org userId rows rnd now) org jobId =
        some (if j.id = jobId ∧ j.org_id = org then
          { j with
            status := JobStatus.completed
            result := some ⟨(foldRows org rnd now ⟨db.voters, db.nextId, 0, 0⟩ 0 rows).importedCount,
                            (foldRows org rnd now ⟨db.voters, db.nextId, 0, 0⟩ 0 rows).skipped,
                            rows.length⟩
            progress := some ⟨"finalizing",
              (foldRows org rnd now ⟨db.voters, db.nextId, 0, 0⟩ 0 rows).importedCount,
              some rows.length⟩
            updated_at := now }
        else j) := key
    rw [hg, if_pos hcond]
    rfl
  · have key := getJob_condMap db.import_jobs jobId org
      (fun x =>
        { x with
          status := JobStatus.failed
          error := some errMsg
          updated_at := now })
      j hj' (fun _ => rfl) (fun _ => rfl)
    have hg : getJob (processImportJobOnError db jobId org userId errMsg now) org jobId =
        some (if j.id = jobId ∧ j.org_id = org then
          { j with
            status := JobStatus.failed
            error := some errMsg
            updated_at := now }
        else j) := key
    rw [hg, if_pos hcond]
    rfl

/-- C3 witness: re-executing on the `completed` job 10 of the demo tenant. -/
theorem c3_status_unguarded_witness :
    (getJob (processImportJob jobsDemoDB 10 0 9 [] zeroJitter 60) 0 10).map
      (fun x => x.status) = some JobStatus.completed ∧
    (getJob (processImportJobOnError jobsDemoDB 10 0 9 "fetch failed" 60) 0 10).map
      (fun x => x.status) = some JobStatus.failed :=
  c3_status_unguarded jobsDemoDB 10 0 9 [] zeroJitter "fetch failed" 60
    { id := 10, org_id := 0, user_id := 9, status := JobStatus.completed,
      file_key := none, result := some ⟨1, 0, 1⟩, error := none,
      progress := none, created_at := 0, updated_at := 0 }
    (by decide)

/-! ## C9 — tenant isolation of reads -/

/-- C9: every read path filters on the requesting tenant's id — the voter
list (search, sort, limit/offset included) and detail reads, the import-job
read, and the merge-alert list read can only return rows whose `org_id` is
the requesting tenant's, so a row created under a different tenant A is never
returned.  (The merge-alert count read counts over the same
`org_id = B` filter by definition, `countOpenAlerts`.) -/
theorem c9_tenant_isolation (db : DB) (A B : Nat) (hAB : A ≠ B)
    (q : Option String) (lim off vid jid : Nat) (st : AlertStatus) :
    (∀ v : Voter, v.org_id = A → v ∉ listVoters db B q lim off) ∧
    (∀ v : Voter, v.org_id = A → getVoter db B vid ≠ some v) ∧
    (∀ j : ImportJobRow, j.org_id = A → getJob db B jid ≠ some j) ∧
    (∀ a : MergeAlert, a.org_id = A → a ∉ listMergeAlerts db B st) := by
  refine ⟨?_, ?_, ?_, ?_⟩
  · intro v hA hmem
    unfold listVoters at hmem
    have h1 := List.take_subset _ _ hmem
    have h2 := List.drop_subset _ _ h1
    have h3 := List.mem_mergeSort.mp h2
    have h4 := (List.mem_filter.mp h3).2
    have h5 := (Bool.and_eq_true _ _).mp h4
    exact hAB (hA ▸ of_decide_eq_true h5.1)
  · intro v hA hcon
    unfold getVoter findVoter at hcon
    have h1 := List.find?_some hcon
    exact hAB (hA ▸ (of_decide_eq_true h1).2)
  · intro j hA hcon
    unfold getJob at hcon
    have h1 := List.find?_some hcon
    exact hAB (hA ▸ (of_decide_eq_true h1).2)
  · intro a hA hmem
    unfold listMergeAlerts at hmem
    have h1 := List.take_subset _ _ hmem
    have h2 := List.mem_mergeSort.mp h1
    have h3 := (List.mem_filter.mp h2).2
    have h4 := (Bool.and_eq_true _ _).mp h3
    have h5 := (Bool.and_eq_true _ _).mp h4.1
    exact hAB (hA ▸ (of_decide_eq_true h5.1).1)

/-- Tenant 1 owns a voter, a job and an alert; reads below are scoped to
tenant 2. -/
def isoDemoDB : DB :=
  { emptyDB with
    voters := [{ baseVoter with id := 1, org_id := 1 }]
    import_jobs :=
      [{ id := 10, org_id := 1, user_id := 9, status := JobStatus.pending,
         file_key := none, result := none, error := none, progress := none,
         created_at := 0, updated_at := 0 }]
    merge_alerts :=
      [{ id := 7, org_id := 1, lead_voter_id := 1, imported_voter_id := 1,
         reason := "phone_match", status := AlertStatus.opened,
         created_at := 0, updated_at := 0 }] }

/-- C9 witness: tenant 1's rows are invisible to every tenant-2 read. -/
theorem c9_tenant_isolation_witness :
    { baseVoter with id := 1, org_id := 1 } ∉ listVoters isoDemoDB 2 none 50 0 ∧
    getVoter isoDemoDB 2 1 ≠ some { baseVoter with id := 1, org_id := 1 } ∧
    getJob isoDemoDB 2 10 ≠ some
      { id := 10, org_id := 1, user_id := 9, status := JobStatus.pending,
        file_key := none, result := none, error := none, progress := none,
        created_at := 0, updated_at := 0 } ∧
    { id := 7, org_id := 1, lead_voter_id := 1, imported_voter_id := 1,
      reason := "phone_match", status := AlertStatus.opened,
      created_at := 0, updated_at := 0 } ∉
      listMergeAlerts isoDemoDB 2 AlertStatus.opened :=
  ⟨(c9_tenant_isolation isoDemoDB 1 2 (by decide) none 50 0 1 10
      AlertStatus.opened).1 _ (by decide),
   (c9_tenant_isolation isoDemoDB 1 2 (by decide) none 50 0 1 10
      AlertStatus.opened).2.1 _ (by decide),
   (c9_tenant_isolation isoDemoDB 1 2 (by decide) none 50 0 1 10
      AlertStatus.opened).2.2.1 _ (by decide),
   (c9_tenant_isolation isoDemoDB 1 2 (by decide) none 50 0 1 10
      AlertStatus.opened).2.2.2 _ (by decide)⟩

/-! ## C8 — `source` is immutable after creation -/

/-- The detection fold never touches the voter store. -/
theorem detectFold_voters (org leadId now : Nat) (ivs : List Voter) :
    ∀ acc : DB, (ivs.foldl (detectStep org leadId now) acc).voters = acc.voters := by
  induction ivs with
  | nil => intro acc; rfl
  | cons iv rest ih =>
    intro acc
    rw [List.foldl_cons]
    rw [ih (detectStep org leadId now acc iv)]
    unfold detectStep
    by_cases hany : acc.merge_alerts.any (fun a =>
        decide (a.org_id = org ∧ a.lead_voter_id = leadId ∧
                a.imported_voter_id = iv.id)) = true
    · rw [if_pos hany]
    · rw [if_neg hany]

/-- `detectPhoneAlerts` never touches the voter store. -/
theorem detectPhoneAlerts_voters (db : DB) (org leadId : Nat) (p : String)
    (now : Nat) : (detectPhoneAlerts db org leadId p now).voters = db.voters :=
  detectFold_voters org leadId now _ db

/-- The row loop of the import job only overwrites mapped columns of existing
rows (never `source`) and appends `import`-sourced rows: the `source` column
sequence of the store is extended, never rewritten. -/
theorem foldRows_sources (org : Nat) (rnd : Nat → ℚ × ℚ) (now : Nat)
    (rows : List ImportRow) :
    ∀ (s : ImpState) (i : Nat), ∃ tail,
      sourcesOf (foldRows org rnd now s i rows).voters =
        sourcesOf s.voters ++ tail := by
  induction rows with
  | nil =>
    intro s i
    exact ⟨[], (List.append_nil _).symm⟩
  | cons r rest ih =>
    intro s i
    rw [foldRows_cons]
    cases hext : rowExt r with
    | none =>
      rw [stepRow_skip _ _ _ _ _ _ hext]
      exact ih _ _
    | some e =>
      by_cases hany : s.voters.any (matchKeyB org e) = true
      · rw [stepRow_conflict _ _ _ _ _ _ _ hext hany]
        obtain ⟨tail, ht⟩ := ih
          { s with
            voters := s.voters.map (fun v =>
              if matchKeyB org e v then setFields v (rowData r (rnd i)) now else v)
            importedCount := s.importedCount + 1 } (i + 1)
        refine ⟨tail, ?_⟩
        rw [ht]
        have : sourcesOf (s.voters.map (fun v =>
            if matchKeyB org e v then setFields v (rowData r (rnd i)) now else v)) =
            sourcesOf s.voters := by
          apply sourcesOf_map_pres
          intro v
          by_cases hc : matchKeyB org e v = true
          · rw [if_pos hc]; rfl
          · rw [if_neg hc]
        rw [this]
      · rw [stepRow_insert _ _ _ _ _ _ _ hext hany]
        obtain ⟨tail, ht⟩ := ih
          { s with
            voters := s.voters ++ [newVoter s.nextId org e (rowData r (rnd i)) now]
            nextId := s.nextId + 1
            importedCount := s.importedCount + 1 } (i + 1)
        refine ⟨Source.imported :: tail, ?_⟩
        rw [ht]
        show sourcesOf (s.voters ++ [newVoter s.nextId org e (rowData r (rnd i)) now]) ++ tail = _
        unfold sourcesOf
        rw [List.map_append]
        simp [newVoter]

/-- C8: none of the post-creation write paths changes any voter's `source`.
The voter PATCH endpoint's field list excludes `source` (and applies no other
change to it on any branch, detection included); the merge endpoint only
updates `merged_into_voter_id`/`updated_at`; the import upsert's
`ON CONFLICT` column list excludes `source`, and its inserts stamp the new
rows `'import'` without touching existing ones.  In each case the `source`
sequence of the pre-existing store is preserved verbatim. -/
theorem c8_source_immutable (db : DB) (org userId vid : Nat)
    (b : PatchVoterBody) (jobId : Nat) (rows : List ImportRow)
    (rnd : Nat → ℚ × ℚ) (lId iId now : Nat) :
    sourcesOf (patchVoter db org userId vid b now).voters = sourcesOf db.voters ∧
    sourcesOf (mergeVoters db org userId lId iId now).1.voters =
      sourcesOf db.voters ∧
    ∃ tail, sourcesOf (processImportJob db jobId org userId rows rnd now).voters =
      sourcesOf db.voters ++ tail := by
  have hmapsrc : ∀ (cond : Voter → Prop) [DecidablePred cond]
      (g : Voter → Voter), (∀ v, (g v).source = v.source) →
      ∀ l : List Voter,
        sourcesOf (l.map (fun v => if cond v then g v else v)) = sourcesOf l := by
    intro cond _ g hg l
    apply sourcesOf_map_pres
    intro v
    by_cases hc : cond v
    · rw [if_pos hc]; exact hg v
    · rw [if_neg hc]
  refine ⟨?_, ?_, ?_⟩
  · cases hF : findVoter db org vid with
    | none =>
      unfold patchVoter
      rw [hF]
    | some v0 =>
      unfold patchVoter
      simp only [hF]
      have hbase : sourcesOf ((db.voters.map (fun v =>
          if v.id = vid ∧ v.org_id = org then applyPatch v b now else v))) =
          sourcesOf db.voters :=
        hmapsrc (fun v => v.id = vid ∧ v.org_id = org)
          (fun v => applyPatch v b now) (fun v => rfl) db.voters
      split_ifs with h1 h2
      any_goals rfl
      cases hph : b.phone with
      | none =>
        simp only [hph]
        exact hbase
      | some p =>
        simp only [hph]
        split_ifs with h3 <;>
          first
            | exact hbase
            | (rw [detectPhoneAlerts_voters]; exact hbase)
  · cases hL : findVoter db org lId with
    | none =>
      unfold mergeVoters
      simp [hL]
    | some lv =>
      cases hT : findVoter db org iId with
      | none =>
        unfold mergeVoters
        simp [hL, hT]
      | some tv =>
        unfold mergeVoters
        simp only [hL, hT]
        by_cases h1 : lv.source ≠ Source.manual
        · rw [if_pos h1]
        · rw [if_neg h1]
          by_cases h2 : tv.source ≠ Source.imported
          · rw [if_pos h2]
          · rw [if_neg h2]
            by_cases h3 : lv.merged_into_voter_id = some iId
            · rw [if_pos h3]
            · rw [if_neg h3]
              exact hmapsrc (fun v => v.id = lId ∧ v.org_id = org)
                (fun v => { v with merged_into_voter_id := some iId, updated_at := now })
                (fun v => rfl) db.voters
  · exact foldRows_sources org rnd now rows ⟨db.voters, db.nextId, 0, 0⟩ 0

/-! ## C4 — rows without external identifier are skipped, not fatal -/

/-- Counter bookkeeping of the row loop: every processed row bumps exactly
one of the two counters — `importedCount` for rows with a usable external
identifier, `skippedMissingExternalId` for the rest. -/
theorem foldRows_counts (org : Nat) (rnd : Nat → ℚ × ℚ) (now : Nat)
    (rows : List ImportRow) :
    ∀ (s : ImpState) (i : Nat),
      (foldRows org rnd now s i rows).importedCount =
        s.importedCount + rows.countP (fun r => (rowExt r).isSome) ∧
      (foldRows org rnd now s i rows).skipped =
        s.skipped + rows.countP (fun r => (rowExt r).isNone) := by
  induction rows with
  | nil =>
    intro s i
    rw [foldRows_nil]
    simp [List.countP_nil]
  | cons r rest ih =>
    intro s i
    rw [foldRows_cons]
    cases hext : rowExt r with
    | none =>
      rw [stepRow_skip _ _ _ _ _ _ hext]
      obtain ⟨h1, h2⟩ := ih { s with skipped := s.skipped + 1 } (i + 1)
      refine ⟨?_, ?_⟩
      · rw [h1]
        simp [List.countP_cons, hext]
      · rw [h2]
        simp [List.countP_cons, hext]
        omega
    | some e =>
      by_cases hany : s.voters.any (matchKeyB org e) = true
      · rw [stepRow_conflict _ _ _ _ _ _ _ hext hany]
        obtain ⟨h1, h2⟩ := ih _ (i + 1)
        refine ⟨?_, ?_⟩
        · rw [h1]
          simp [List.countP_cons, hext]
          omega
        · rw [h2]
          simp [List.countP_cons, hext]
      · rw [stepRow_insert _ _ _ _ _ _ _ hext hany]
        obtain ⟨h1, h2⟩ := ih _ (i + 1)
        refine ⟨?_, ?_⟩
        · rw [h1]
          simp [List.countP_cons, hext]
          omega
        · rw [h2]
          simp [List.countP_cons, hext]

/-- C4: a row whose external identifier (snake_case `external_id` falling
back to camelCase `externalId`) is absent or trims to the empty string only
bumps the skip counter — it writes no voter row; the job still completes,
its `result` holding `importedCount` = number of rows with a usable
identifier and `skippedMissingExternalId` = number of rows without one, and
the two counters sum to the total row count. -/
theorem c4_skip_not_fail (db : DB) (jobId org userId : Nat)
    (rows : List ImportRow) (rnd : Nat → ℚ × ℚ) (now : Nat)
    (j : ImportJobRow) (hj : getJob db org jobId = some j) :
    (∀ (s : ImpState) (i : Nat) (r : ImportRow), rowExt r = none →
      stepRow org rnd now s i r = { s with skipped := s.skipped + 1 }) ∧
    (getJob (processImportJob db jobId org userId rows rnd now) org jobId).map
      (fun x => (x.status, x.result)) =
      some (JobStatus.completed,
        some ⟨rows.countP (fun r => (rowExt r).isSome),
              rows.countP (fun r => (rowExt r).isNone), rows.length⟩) ∧
    rows.countP (fun r => (rowExt r).isSome) +
      rows.countP (fun r => (rowExt r).isNone) = rows.length := by
  have hj' : db.import_jobs.find?
      (fun x => decide (x.id = jobId ∧ x.org_id = org)) = some j := hj
  have hdec := List.find?_some hj'
  have hcond : j.id = jobId ∧ j.org_id = org := of_decide_eq_true hdec
  refine ⟨fun s i r h => stepRow_skip org rnd now s i r h, ?_, ?_⟩
  · have key := getJob_condMap db.import_jobs jobId org
      (fun x =>
        { x with
          status := JobStatus.completed
          result := some ⟨(foldRows org rnd now ⟨db.voters, db.nextId, 0, 0⟩ 0 rows).importedCount,
                          (foldRows org rnd now ⟨db.voters, db.nextId, 0, 0⟩ 0 rows).skipped,
                          rows.length⟩
          progress := some ⟨"finalizing",
            (foldRows org rnd now ⟨db.voters, db.nextId, 0, 0⟩ 0 rows).importedCount,
            some rows.length⟩
          updated_at := now })
      j hj' (fun _ => rfl) (fun _ => rfl)
    have hg : getJob (processImportJob db jobId org userId rows rnd now) org jobId =
        some (if j.id = jobId ∧ j.org_id = org then
          { j with
            status := JobStatus.completed
            result := some ⟨(foldRows org rnd now ⟨db.voters, db.nextId, 0, 0⟩ 0 rows).importedCount,
                            (foldRows org rnd now ⟨db.voters, db.nextId, 0, 0⟩ 0 rows).skipped,
                            rows.length⟩
            progress := some ⟨"finalizing",
              (foldRows org rnd now ⟨db.voters, db.nextId, 0, 0⟩ 0 rows).importedCount,
              some rows.length⟩
            updated_at := now }
        else j) := key
    rw [hg, if_pos hcond]
    obtain ⟨hc1, hc2⟩ := foldRows_counts org rnd now rows ⟨db.voters, db.nextId, 0, 0⟩ 0
    simp [hc1, hc2]
  · have hneg : ∀ r : ImportRow,
        (rowExt r).isNone = decide ¬((rowExt r).isSome = true) := by
      intro r
      cases hx : rowExt r <;> rfl
    have heq : rows.countP (fun a => decide ¬((rowExt a).isSome = true)) =
        rows.countP (fun a => (rowExt a).isNone) :=
      List.countP_congr (fun r _ => by cases hx : rowExt r <;> simp [hx])
    rw [List.length_eq_countP_add_countP (fun r => (rowExt r).isSome) rows, heq]

/-- Tenant 0 with a single `pending` import job. -/
def importDemoDB : DB :=
  { emptyDB with import_jobs :=
    [{ id := 12, org_id := 0, user_id := 9, status := JobStatus.pending,
       file_key := none, result := none, error := none, progress := none,
       created_at := 0, updated_at := 0 }] }

/-- An inline payload row with a usable external id. -/
def rowImp1 : ImportRow :=
  { external_id := some "IMP-1", first_name := some "A", last_name := some "One",
    address := some "1 St", city := some "City", zip := some "00000" }

/-- An inline payload row with no external id at all. -/
def rowNoExt : ImportRow := { first_name := some "B" }

/-- C4 witness: a two-row payload with one usable and one missing external
id completes with `importedCount = 1`, `skippedMissingExternalId = 1`,
`total_rows = 2`; the skipped row leaves the state untouched except for the
skip counter. -/
theorem c4_skip_not_fail_witness :
    (getJob (processImportJob importDemoDB 12 0 9 [rowImp1, rowNoExt]
        zeroJitter 60) 0 12).map (fun x => (x.status, x.result)) =
      some (JobStatus.completed, some ⟨1, 1, 2⟩) ∧
    stepRow 0 zeroJitter 60 ⟨[], 100, 0, 0⟩ 1 rowNoExt = ⟨[], 100, 0, 1⟩ :=
  ⟨(c4_skip_not_fail importDemoDB 12 0 9 [rowImp1, rowNoExt] zeroJitter 60
      { id := 12, org_id := 0, user_id := 9, status := JobStatus.pending,
        file_key := none, result := none, error := none, progress := none,
        created_at := 0, updated_at := 0 }
      (by decide)).2.1,
   (c4_skip_not_fail importDemoDB 12 0 9 [rowImp1, rowNoExt] zeroJitter 60
      { id := 12, org_id := 0, user_id := 9, status := JobStatus.pending,
        file_key := none, result := none, error := none, progress := none,
        created_at := 0, updated_at := 0 }
      (by decide)).1 ⟨[], 100, 0, 0⟩ 1 rowNoExt (by decide)⟩

/-! ## C2 — convergence of re-running the same import payload

Supporting notions: the processed upsert keys of a payload, the last
occurrence of each key (last-write-wins), and the volatile columns
(`Math.random()`-jittered geocoordinate placeholders and `updated_at`)
masked for run-to-run comparison. -/

/-- The upsert keys a payload processes, in row order. -/
def extsOf (rows : List ImportRow) : List String := rows.filterMap rowExt

/-- The last row of the payload carrying key `e`, with its position
(positions start at `i`). -/
def lastOccFrom : Nat → List ImportRow → String → Option (Nat × ImportRow)
  | _, [], _ => none
  | i, r :: rs, e =>
    match lastOccFrom (i + 1) rs e with
    | some p => some p
    | none => if rowExt r = some e then some (i, r) else none

/-- Mask the volatile columns of a voter row: the jittered geocoordinate
placeholders and the refreshed `updated_at`. -/
def scrubVolatile (v : Voter) : Voter :=
  { v with geom_lat := none, geom_lng := none, updated_at := 0 }

/-- What one run does to a pre-existing voter row when every processed key is
already present: overwrite it with the data of the last payload row carrying
its key (nothing otherwise). -/
def overwriteFrom (org : Nat) (rnd : Nat → ℚ × ℚ) (now : Nat) (i : Nat)
    (rows : List ImportRow) (v : Voter) : Voter :=
  match v.external_id with
  | some e =>
    if v.org_id = org then
      match lastOccFrom i rows e with
      | some (idx, r) => setFields v (rowData r (rnd idx)) now
      | none => v
    else v
  | none => v

theorem setFields_setFields (v : Voter) (d d' : RowData) (n n' : Nat) :
    setFields (setFields v d' n') d n = setFields v d n := rfl

theorem newVoter_setFields (vid org : Nat) (e : String) (d : RowData) (n : Nat) :
    setFields (newVoter vid org e d n) d n = newVoter vid org e d n := rfl

theorem scrub_setFields (v : Voter) (c : RowCore) (a b a' b' : ℚ) (n n' : Nat) :
    scrubVolatile (setFields v ⟨c, a, b⟩ n) =
      scrubVolatile (setFields v ⟨c, a', b'⟩ n') := rfl

theorem matchKeyB_setFields (org' : Nat) (e' : String) (v : Voter) (d : RowData)
    (n : Nat) : matchKeyB org' e' (setFields v d n) = matchKeyB org' e' v := rfl

/-- The conflict-arm update preserves every upsert key. -/
theorem matchKeyB_condSet (org : Nat) (e : String) (org' : Nat) (e' : String)
    (v : Voter) (d : RowData) (n : Nat) :
    matchKeyB org' e'
      (if matchKeyB org e v then setFields v d n else v) = matchKeyB org' e' v := by
  by_cases h : matchKeyB org e v = true
  · rw [if_pos h, matchKeyB_setFields]
  · rw [if_neg h]

theorem matchKeyB_newVoter (org' : Nat) (e' : String) (vid org : Nat)
    (e : String) (d : RowData) (n : Nat) :
    matchKeyB org' e' (newVoter vid org e d n) = decide (org = org' ∧ e = e') := by
  unfold matchKeyB newVoter
  rw [decide_eq_decide]
  constructor
  · rintro ⟨h1, h2⟩
    exact ⟨h1, Option.some.inj h2⟩
  · rintro ⟨h1, h2⟩
    exact ⟨h1, by rw [h2]⟩

/-- `matchKeyB` pins down the key columns of a voter. -/
theorem matchKeyB_eq_true {org : Nat} {e : String} {v : Voter}
    (h : matchKeyB org e v = true) :
    v.org_id = org ∧ v.external_id = some e :=
  of_decide_eq_true h

/-- A key matching two key strings matches equal strings. -/
theorem matchKeyB_unique {org : Nat} {e e' : String} {v : Voter}
    (h : matchKeyB org e v = true) (h' : matchKeyB org e' v = true) : e = e' := by
  have h1 := (matchKeyB_eq_true h).2
  have h2 := (matchKeyB_eq_true h').2
  exact Option.some.inj (h1 ▸ h2)

/-- Positive key count and a successful `any` agree. -/
theorem any_iff_countP_pos (l : List Voter) (p : Voter → Bool) :
    l.any p = true ↔ 0 < l.countP p := by
  rw [List.any_eq_true, List.countP_pos_iff]

/-- The conflict arm preserves every key count. -/
theorem countP_condSet (l : List Voter) (org : Nat) (e : String) (d : RowData)
    (n : Nat) (org' : Nat) (e' : String) :
    (l.map (fun v => if matchKeyB org e v then setFields v d n else v)).countP
      (matchKeyB org' e') = l.countP (matchKeyB org' e') :=
  countP_map_pres _ _ (fun v => matchKeyB_condSet org e org' e' v d n) l

/-- The insert arm adds exactly one row at its own key. -/
theorem countP_append_newVoter (l : List Voter) (vid org : Nat) (e : String)
    (d : RowData) (n : Nat) (org' : Nat) (e' : String) :
    (l ++ [newVoter vid org e d n]).countP (matchKeyB org' e') =
      l.countP (matchKeyB org' e') + (if org = org' ∧ e = e' then 1 else 0) := by
  rw [List.countP_append]
  congr 1
  rw [List.countP_cons, List.countP_nil, matchKeyB_newVoter]
  by_cases hc : org = org' ∧ e = e'
  · simp [hc]
  · simp [hc]

/-- Main bookkeeping of one import run: the partial-unique-index invariant is
preserved, every processed key ends with exactly one row, and the count of
every unprocessed key (and of every key of another tenant) is untouched. -/
theorem foldRows_inv_count (org : Nat) (rnd : Nat → ℚ × ℚ) (now : Nat)
    (rows : List ImportRow) :
    ∀ (s : ImpState) (i : Nat), UniqueExt s.voters →
      UniqueExt (foldRows org rnd now s i rows).voters ∧
      (∀ e ∈ extsOf rows,
        (foldRows org rnd now s i rows).voters.countP (matchKeyB org e) = 1) ∧
      (∀ org' e', (org' = org → e' ∉ extsOf rows) →
        (foldRows org rnd now s i rows).voters.countP (matchKeyB org' e') =
          s.voters.countP (matchKeyB org' e')) := by
  induction rows with
  | nil =>
    intro s i hInv
    rw [foldRows_nil]
    exact ⟨hInv, by simp [extsOf], fun org' e' _ => rfl⟩
  | cons r rest ih =>
    intro s i hInv
    rw [foldRows_cons]
    cases hext : rowExt r with
    | none =>
      rw [stepRow_skip _ _ _ _ _ _ hext]
      have hexts : extsOf (r :: rest) = extsOf rest := by
        simp [extsOf, List.filterMap_cons, hext]
      have ihs := ih { s with skipped := s.skipped + 1 } (i + 1) hInv
      refine ⟨ihs.1, ?_, ?_⟩
      · intro e he
        exact ihs.2.1 e (hexts ▸ he)
      · intro org' e' hne
        exact ihs.2.2 org' e' (fun h => hexts ▸ hne h)
    | some e =>
      by_cases hany : s.voters.any (matchKeyB org e) = true
      · rw [stepRow_conflict _ _ _ _ _ _ _ hext hany]
        have hexts : extsOf (r :: rest) = e :: extsOf rest := by
          simp [extsOf, List.filterMap_cons, hext]
        have hInv' : UniqueExt (s.voters.map (fun v =>
            if matchKeyB org e v then setFields v (rowData r (rnd i)) now else v)) := by
          intro org' e'
          rw [countP_condSet]
          exact hInv org' e'
        have ihs := ih
          { s with
            voters := s.voters.map (fun v =>
              if matchKeyB org e v then setFields v (rowData r (rnd i)) now else v)
            importedCount := s.importedCount + 1 } (i + 1) hInv'
        refine ⟨ihs.1, ?_, ?_⟩
        · intro e'' he''
          rw [hexts] at he''
          rcases List.mem_cons.mp he'' with rfl | hmem
          · by_cases hmem2 : e'' ∈ extsOf rest
            · exact ihs.2.1 e'' hmem2
            · have hframe := ihs.2.2 org e'' (fun _ => hmem2)
              rw [hframe]
              have hc : s.voters.countP (matchKeyB org e'') = 1 := by
                have hpos := (any_iff_countP_pos _ _).mp hany
                have hle := hInv org e''
                omega
              calc ({ s with
                  voters := s.voters.map (fun v =>
                    if matchKeyB org e'' v then
                      setFields v (rowData r (rnd i)) now else v)
                  importedCount := s.importedCount + 1 } : ImpState).voters.countP
                    (matchKeyB org e'')
                  = s.voters.countP (matchKeyB org e'') :=
                    countP_condSet s.voters org e'' (rowData r (rnd i)) now org e''
                _ = 1 := hc
          · exact ihs.2.1 e'' hmem
        · intro org' e' hne
          have hne' : org' = org → e' ∉ extsOf rest := by
            intro h hmem
            exact hne h (hexts ▸ List.mem_cons_of_mem e hmem)
          rw [ihs.2.2 org' e' hne']
          exact countP_condSet s.voters org e (rowData r (rnd i)) now org' e'
      · rw [stepRow_insert _ _ _ _ _ _ _ hext hany]
        have hexts : extsOf (r :: rest) = e :: extsOf rest := by
          simp [extsOf, List.filterMap_cons, hext]
        have hcnt0 : s.voters.countP (matchKeyB org e) = 0 := by
          by_contra h
          exact hany ((any_iff_countP_pos _ _).mpr (Nat.pos_of_ne_zero h))
        have hInv' : UniqueExt (s.voters ++
            [newVoter s.nextId org e (rowData r (rnd i)) now]) := by
          intro org' e'
          rw [countP_append_newVoter]
          by_cases hc : org = org' ∧ e = e'
          · rw [if_pos hc]
            have : s.voters.countP (matchKeyB org' e') = 0 := by
              rcases hc with ⟨h1, h2⟩
              rw [← h1, ← h2]
              exact hcnt0
            omega
          · rw [if_neg hc]
            have := hInv org' e'
            omega
        have ihs := ih
          { s with
            voters := s.voters ++ [newVoter s.nextId org e (rowData r (rnd i)) now]
            nextId := s.nextId + 1
            importedCount := s.importedCount + 1 } (i + 1) hInv'
        refine ⟨ihs.1, ?_, ?_⟩
        · intro e'' he''
          rw [hexts] at he''
          rcases List.mem_cons.mp he'' with rfl | hmem
          · by_cases hmem2 : e'' ∈ extsOf rest
            · exact ihs.2.1 e'' hmem2
            · have hframe := ihs.2.2 org e'' (fun _ => hmem2)
              rw [hframe]
              calc ({ s with
                  voters := s.voters ++
                    [newVoter s.nextId org e'' (rowData r (rnd i)) now]
                  nextId := s.nextId + 1
                  importedCount := s.importedCount + 1 } : ImpState).voters.countP
                    (matchKeyB org e'')
                  = s.voters.countP (matchKeyB org e'') +
                      (if org = org ∧ e'' = e'' then 1 else 0) :=
                    countP_append_newVoter s.voters s.nextId org e''
                      (rowData r (rnd i)) now org e''
                _ = 1 := by
                    rw [if_pos ⟨rfl, rfl⟩]
                    omega
          · exact ihs.2.1 e'' hmem
        · intro org' e' hne
          have hne' : org' = org → e' ∉ extsOf rest := by
            intro h hmem
            exact hne h (hexts ▸ List.mem_cons_of_mem e hmem)
          rw [ihs.2.2 org' e' hne']
          have hzero : (if org = org' ∧ e = e' then 1 else 0) = 0 := by
            rw [if_neg]
            rintro ⟨h1, h2⟩
            exact hne h1.symm (hexts ▸ (h2 ▸ List.mem_cons_self e (extsOf rest)))
          calc ({ s with
              voters := s.voters ++
                [newVoter s.nextId org e (rowData r (rnd i)) now]
              nextId := s.nextId + 1
              importedCount := s.importedCount + 1 } : ImpState).voters.countP
                (matchKeyB org' e')
              = s.voters.countP (matchKeyB org' e') +
                  (if org = org' ∧ e = e' then 1 else 0) :=
                countP_append_newVoter s.voters s.nextId org e
                  (rowData r (rnd i)) now org' e'
            _ = s.voters.countP (matchKeyB org' e') := by
                rw [hzero]
                omega

theorem lastOccFrom_cons (i : Nat) (r : ImportRow) (rs : List ImportRow)
    (e : String) :
    lastOccFrom i (r :: rs) e =
      match lastOccFrom (i + 1) rs e with
      | some p => some p
      | none => if rowExt r = some e then some (i, r) else none := rfl

/-- A key of the tail is a key of the whole payload. -/
theorem extsOf_sub (r : ImportRow) (rest : List ImportRow) :
    extsOf rest ⊆ extsOf (r :: rest) := by
  intro x hx
  simp only [extsOf, List.filterMap_cons]
  cases rowExt r
  · exact hx
  · exact List.mem_cons_of_mem _ hx

/-- A skipped head row contributes no occurrence. -/
theorem lastOccFrom_skip (i : Nat) (r : ImportRow) (rest : List ImportRow)
    (e : String) (h : rowExt r = none) :
    lastOccFrom i (r :: rest) e = lastOccFrom (i + 1) rest e := by
  rw [lastOccFrom_cons]
  cases hrest : lastOccFrom (i + 1) rest e with
  | some p => rfl
  | none =>
    show (if rowExt r = some e then some (i, r) else none) = none
    rw [h]
    exact if_neg (fun hc => Option.noConfusion hc)

/-- No occurrence of a key means the key is not processed. -/
theorem lastOccFrom_none_iff (e : String) :
    ∀ (rows : List ImportRow) (i : Nat),
      lastOccFrom i rows e = none ↔ e ∉ extsOf rows := by
  intro rows
  induction rows with
  | nil =>
    intro i
    simp [lastOccFrom, extsOf]
  | cons r rs ih =>
    intro i
    rw [lastOccFrom_cons]
    cases hrest : lastOccFrom (i + 1) rs e with
    | some p =>
      constructor
      · intro h
        exact Option.noConfusion h
      · intro h
        exfalso
        apply h
        apply extsOf_sub r rs
        by_contra hmem
        exact Option.noConfusion (hrest ▸ (ih (i + 1)).mpr hmem)
    | none =>
      show (if rowExt r = some e then some (i, r) else none) = none ↔
        e ∉ extsOf (r :: rs)
      have hno : e ∉ extsOf rs := (ih (i + 1)).mp hrest
      by_cases hr : rowExt r = some e
      · rw [if_pos hr]
        constructor
        · intro h
          exact absurd h (fun hc => Option.noConfusion hc)
        · intro h
          exfalso
          apply h
          simp [extsOf, List.filterMap_cons, hr]
      · rw [if_neg hr]
        constructor
        · intro _ hmem
          simp only [extsOf, List.filterMap_cons] at hmem
          cases hre : rowExt r with
          | none =>
            rw [hre] at hmem
            exact hno hmem
          | some e'' =>
            rw [hre] at hmem
            rcases List.mem_cons.mp hmem with rfl | hmem'
            · exact hr hre
            · exact hno hmem'
        · intro _
          rfl

/-- Rows whose key the remaining payload never processes are carried through
the rest of the run untouched: any property of the key's rows persists. -/
theorem foldRows_stable (org : Nat) (rnd : Nat → ℚ × ℚ) (now : Nat)
    (e : String) (P : Voter → Prop) (rows : List ImportRow) :
    ∀ (s : ImpState) (i : Nat), e ∉ extsOf rows →
      (∀ v ∈ s.voters, matchKeyB org e v = true → P v) →
      ∀ v ∈ (foldRows org rnd now s i rows).voters,
        matchKeyB org e v = true → P v := by
  induction rows with
  | nil =>
    intro s i _ hall
    rw [foldRows_nil]
    exact hall
  | cons r rest ih =>
    intro s i hne hall
    rw [foldRows_cons]
    have hrest : e ∉ extsOf rest := fun h => hne (extsOf_sub r rest h)
    cases hext : rowExt r with
    | none =>
      rw [stepRow_skip _ _ _ _ _ _ hext]
      exact ih _ (i + 1) hrest hall
    | some e'' =>
      have hne'' : e ≠ e'' := by
        intro h
        apply hne
        rw [h]
        simp [extsOf, List.filterMap_cons, hext]
      by_cases hany : s.voters.any (matchKeyB org e'') = true
      · rw [stepRow_conflict _ _ _ _ _ _ _ hext hany]
        apply ih _ (i + 1) hrest
        intro v hv hkey
        obtain ⟨v', hv', hgv⟩ := List.mem_map.mp hv
        have hkeys : matchKeyB org e v' = matchKeyB org e v := by
          rw [← hgv, matchKeyB_condSet]
        by_cases hk2 : matchKeyB org e'' v' = true
        · exact absurd (matchKeyB_unique (hkeys ▸ hkey) hk2) hne''
        · rw [if_neg hk2] at hgv
          rw [← hgv]
          exact hall v' hv' (hkeys ▸ hkey)
      · rw [stepRow_insert _ _ _ _ _ _ _ hext hany]
        apply ih _ (i + 1) hrest
        intro v hv hkey
        rcases List.mem_append.mp hv with hv' | hv'
        · exact hall v hv' hkey
        · exfalso
          have hv'' := List.mem_singleton.mp hv'
          rw [hv'', matchKeyB_newVoter] at hkey
          exact hne'' (of_decide_eq_true hkey).2.symm

/-- Last-write-wins: after a run, every row holding a processed key carries
exactly the column values computed from the *last* payload row with that key
(with that row's jitter draws and the run's timestamp). -/
theorem foldRows_lastWrite (org : Nat) (rnd : Nat → ℚ × ℚ) (now : Nat)
    (rows : List ImportRow) :
    ∀ (s : ImpState) (i : Nat) (e : String) (idx : Nat) (r' : ImportRow),
      lastOccFrom i rows e = some (idx, r') →
      ∀ v ∈ (foldRows org rnd now s i rows).voters,
        matchKeyB org e v = true → v = setFields v (rowData r' (rnd idx)) now := by
  induction rows with
  | nil =>
    intro s i e idx r' h
    exact absurd h (by simp [lastOccFrom])
  | cons r rest ih =>
    intro s i e idx r' hlast
    rw [foldRows_cons]
    rw [lastOccFrom_cons] at hlast
    cases hrest : lastOccFrom (i + 1) rest e with
    | some p =>
      rw [hrest] at hlast
      have hp : p = (idx, r') := Option.some.inj hlast
      exact ih _ (i + 1) e idx r' (by rw [hrest, hp])
    | none =>
      rw [hrest] at hlast
      have hlast' : (if rowExt r = some e then some (i, r) else none) =
          some (idx, r') := hlast
      by_cases hr : rowExt r = some e
      · rw [if_pos hr] at hlast'
        have hpair := Option.some.inj hlast'
        have hidx : i = idx := congrArg Prod.fst hpair
        have hrr : r = r' := congrArg Prod.snd hpair
        subst hidx
        subst hrr
        have hnotin : e ∉ extsOf rest := (lastOccFrom_none_iff e rest (i + 1)).mp hrest
        apply foldRows_stable org rnd now e
          (fun v => v = setFields v (rowData r (rnd i)) now) rest _ (i + 1) hnotin
        by_cases hany : s.voters.any (matchKeyB org e) = true
        · rw [stepRow_conflict _ _ _ _ _ _ _ hr hany]
          intro v hv hkey
          obtain ⟨v', hv', hgv⟩ := List.mem_map.mp hv
          by_cases hk' : matchKeyB org e v' = true
          · rw [if_pos hk'] at hgv
            rw [← hgv, setFields_setFields]
          · rw [if_neg hk'] at hgv
            exact absurd (hgv ▸ hkey) hk'
        · rw [stepRow_insert _ _ _ _ _ _ _ hr hany]
          intro v hv hkey
          rcases List.mem_append.mp hv with hv' | hv'
          · exact absurd (List.any_eq_true.mpr ⟨v, hv', hkey⟩) hany
          · rw [List.mem_singleton.mp hv', newVoter_setFields]
      · rw [if_neg hr] at hlast'
        exact absurd hlast' (fun hc => Option.noConfusion hc)

/-- Pointwise views of `overwriteFrom`. -/
theorem ow_no_ext (org : Nat) (rnd : Nat → ℚ × ℚ) (now i : Nat)
    (rows : List ImportRow) (v : Voter) (h : v.external_id = none) :
    overwriteFrom org rnd now i rows v = v := by
  unfold overwriteFrom
  rw [h]

theorem ow_other_org (org : Nat) (rnd : Nat → ℚ × ℚ) (now i : Nat)
    (rows : List ImportRow) (v : Voter) (e : String)
    (h : v.external_id = some e) (horg : ¬ v.org_id = org) :
    overwriteFrom org rnd now i rows v = v := by
  unfold overwriteFrom
  rw [h]
  show (if v.org_id = org then _ else v) = v
  rw [if_neg horg]

theorem ow_key (org : Nat) (rnd : Nat → ℚ × ℚ) (now i : Nat)
    (rows : List ImportRow) (v : Voter) (e : String)
    (h : v.external_id = some e) (horg : v.org_id = org) :
    overwriteFrom org rnd now i rows v =
      (match lastOccFrom i rows e with
       | some (idx, r) => setFields v (rowData r (rnd idx)) now
       | none => v) := by
  unfold overwriteFrom
  rw [h]
  show (if v.org_id = org then
    (match lastOccFrom i rows e with
     | some (idx, r) => setFields v (rowData r (rnd idx)) now
     | none => v) else v) = _
  rw [if_pos horg]

/-- When every processed key is already present in the store (the situation
of a re-run), the whole run performs no insert: it is exactly the pointwise
overwrite of each present row with its key's last payload row. -/
theorem foldRows_map (org : Nat) (rnd : Nat → ℚ × ℚ) (now : Nat)
    (rows : List ImportRow) :
    ∀ (s : ImpState) (i : Nat),
      (∀ e ∈ extsOf rows, 0 < s.voters.countP (matchKeyB org e)) →
      (foldRows org rnd now s i rows).voters =
        s.voters.map (overwriteFrom org rnd now i rows) := by
  induction rows with
  | nil =>
    intro s i _
    rw [foldRows_nil]
    have hid : ∀ v ∈ s.voters, overwriteFrom org rnd now i [] v = v := by
      intro v _
      cases hve : v.external_id with
      | none => exact ow_no_ext org rnd now i [] v hve
      | some e =>
        by_cases ho : v.org_id = org
        · rw [ow_key org rnd now i [] v e hve ho]
          rfl
        · exact ow_other_org org rnd now i [] v e hve ho
    rw [List.map_congr_left hid]
    exact (List.map_id s.voters).symm
  | cons r rest ih =>
    intro s i hAll
    rw [foldRows_cons]
    cases hext : rowExt r with
    | none =>
      have hexts : extsOf (r :: rest) = extsOf rest := by
        simp [extsOf, List.filterMap_cons, hext]
      rw [stepRow_skip _ _ _ _ _ _ hext]
      rw [ih { s with skipped := s.skipped + 1 } (i + 1)
        (fun e he => hAll e (hexts ▸ he))]
      apply List.map_congr_left
      intro v _
      cases hve : v.external_id with
      | none =>
        rw [ow_no_ext org rnd now (i + 1) rest v hve,
          ow_no_ext org rnd now i (r :: rest) v hve]
      | some e =>
        by_cases ho : v.org_id = org
        · rw [ow_key org rnd now (i + 1) rest v e hve ho,
            ow_key org rnd now i (r :: rest) v e hve ho,
            lastOccFrom_skip i r rest e hext]
        · rw [ow_other_org org rnd now (i + 1) rest v e hve ho,
            ow_other_org org rnd now i (r :: rest) v e hve ho]
    | some e =>
      have hexts : extsOf (r :: rest) = e :: extsOf rest := by
        simp [extsOf, List.filterMap_cons, hext]
      have hany : s.voters.any (matchKeyB org e) = true := by
        apply (any_iff_countP_pos _ _).mpr
        apply hAll e
        rw [hexts]
        exact List.mem_cons_self e (extsOf rest)
      rw [stepRow_conflict _ _ _ _ _ _ _ hext hany]
      have hAll2 : ∀ e' ∈ extsOf rest,
          0 < (s.voters.map (fun v =>
            if matchKeyB org e v then setFields v (rowData r (rnd i)) now
            else v)).countP (matchKeyB org e') := by
        intro e' he'
        rw [countP_condSet s.voters org e (rowData r (rnd i)) now org e']
        exact hAll e' (hexts ▸ List.mem_cons_of_mem e he')
      rw [ih
        { s with
          voters := s.voters.map (fun v =>
            if matchKeyB org e v then setFields v (rowData r (rnd i)) now else v)
          importedCount := s.importedCount + 1 } (i + 1) hAll2]
      rw [List.map_map]
      apply List.map_congr_left
      intro v _
      show overwriteFrom org rnd now (i + 1) rest
        (if matchKeyB org e v then setFields v (rowData r (rnd i)) now else v) =
        overwriteFrom org rnd now i (r :: rest) v
      cases hve : v.external_id with
      | none =>
        have hk : matchKeyB org e v = false := by
          apply decide_eq_false
          rintro ⟨_, h2⟩
          rw [hve] at h2
          exact Option.noConfusion h2
        rw [hk, if_neg Bool.false_ne_true]
        rw [ow_no_ext org rnd now (i + 1) rest v hve,
          ow_no_ext org rnd now i (r :: rest) v hve]
      | some e' =>
        by_cases ho : v.org_id = org
        · by_cases hee : e' = e
          · subst hee
            have hk : matchKeyB org e' v = true := decide_eq_true ⟨ho, hve⟩
            rw [if_pos hk]
            have hve2 : (setFields v (rowData r (rnd i)) now).external_id =
                some e' := hve
            have ho2 : (setFields v (rowData r (rnd i)) now).org_id = org := ho
            rw [ow_key org rnd now (i + 1) rest
              (setFields v (rowData r (rnd i)) now) e' hve2 ho2]
            rw [ow_key org rnd now i (r :: rest) v e' hve ho, lastOccFrom_cons]
            cases hrest : lastOccFrom (i + 1) rest e' with
            | some p =>
              obtain ⟨idx, r2⟩ := p
              exact setFields_setFields v (rowData r2 (rnd idx))
                (rowData r (rnd i)) now now
            | none =>
              rw [hext, if_pos rfl]
          · have hk : matchKeyB org e v = false := by
              apply decide_eq_false
              rintro ⟨_, h2⟩
              rw [hve] at h2
              exact hee (Option.some.inj h2)
            rw [hk, if_neg Bool.false_ne_true]
            rw [ow_key org rnd now (i + 1) rest v e' hve ho,
              ow_key org rnd now i (r :: rest) v e' hve ho, lastOccFrom_cons]
            cases hrest : lastOccFrom (i + 1) rest e' with
            | some p => rfl
            | none =>
              rw [hext, if_neg (fun hc => hee (Option.some.inj hc).symm)]
        · have hk : matchKeyB org e v = false := by
            apply decide_eq_false
            rintro ⟨h1, _⟩
            exact ho h1
          rw [hk, if_neg Bool.false_ne_true]
          rw [ow_other_org org rnd now (i + 1) rest v e' hve ho,
            ow_other_org org rnd now i (r :: rest) v e' hve ho]

/-- A payload row carrying only an external id (no geocoordinates, so the
jittered placeholder applies). -/
def c2row : ImportRow := { external_id := some "A" }

/-- A `Math.random()` oracle drawing 1/2. -/
def halfJitter : Nat → ℚ × ℚ := fun _ => (1 / 2, 0)

/-- C2 counterexample: the same one-row payload run twice against the same
tenant does *not* leave the voter data identical: the row has no
geocoordinates, so each run stores `40.7128 + Math.random() * 0.01` — two
executions draw different jitters and the stored `geom_lat` differs. -/
theorem c2_counterexample :
    (processImportJob (processImportJob emptyDB 12 0 9 [c2row] zeroJitter 1)
        12 0 9 [c2row] halfJitter 2).voters.map (fun v => v.geom_lat) ≠
      (processImportJob emptyDB 12 0 9 [c2row] zeroJitter 1).voters.map
        (fun v => v.geom_lat) := by
  have h1 : (processImportJob emptyDB 12 0 9 [c2row] zeroJitter 1).voters.map
      (fun v => v.geom_lat) =
      [some ((407128 : ℚ) / 10000 + 0 * (1 / 100))] := rfl
  have h2 : (processImportJob (processImportJob emptyDB 12 0 9 [c2row]
        zeroJitter 1) 12 0 9 [c2row] halfJitter 2).voters.map
      (fun v => v.geom_lat) =
      [some ((407128 : ℚ) / 10000 + 1 / 2 * (1 / 100))] := rfl
  intro h
  rw [h1, h2] at h
  simp only [List.cons.injEq, Option.some.injEq, and_true] at h
  norm_num at h

/-- C2 (amended): re-running the same payload against the same tenant is
convergent *except for the volatile columns*: after the second run there is
exactly one voter row per processed external id (and the partial unique
index invariant holds), every mapped field of that row holds the value the
second run computed from the key's last payload row (last-write-wins,
including the second run's jitter and timestamp), and the stored voter data
of the two runs agree on every column other than the `Math.random()`-jittered
geocoordinate placeholders and `updated_at`, which are re-drawn by each run
when the source row carries no coordinates. -/
theorem c2_import_rerun (db : DB) (jobId org userId : Nat)
    (rows : List ImportRow) (r1 r2 : Nat → ℚ × ℚ) (now1 now2 : Nat)
    (hInv : UniqueExt db.voters) :
    UniqueExt (processImportJob (processImportJob db jobId org userId rows r1 now1)
      jobId org userId rows r2 now2).voters ∧
    (∀ e ∈ extsOf rows,
      (processImportJob (processImportJob db jobId org userId rows r1 now1)
        jobId org userId rows r2 now2).voters.countP (matchKeyB org e) = 1) ∧
    (∀ e idx r, lastOccFrom 0 rows e = some (idx, r) →
      ∀ v ∈ (processImportJob (processImportJob db jobId org userId rows r1 now1)
          jobId org userId rows r2 now2).voters,
        matchKeyB org e v = true → v = setFields v (rowData r (r2 idx)) now2) ∧
    (processImportJob (processImportJob db jobId org userId rows r1 now1)
        jobId org userId rows r2 now2).voters.map scrubVolatile =
      (processImportJob db jobId org userId rows r1 now1).voters.map
        scrubVolatile := by
  have run1 := foldRows_inv_count org r1 now1 rows ⟨db.voters, db.nextId, 0, 0⟩ 0 hInv
  have hInv1 : UniqueExt
      (processImportJob db jobId org userId rows r1 now1).voters := run1.1
  have run2 := foldRows_inv_count org r2 now2 rows
    ⟨(processImportJob db jobId org userId rows r1 now1).voters,
     (processImportJob db jobId org userId rows r1 now1).nextId, 0, 0⟩ 0 hInv1
  refine ⟨run2.1, run2.2.1, ?_, ?_⟩
  · intro e idx r h
    exact foldRows_lastWrite org r2 now2 rows
      ⟨(processImportJob db jobId org userId rows r1 now1).voters,
       (processImportJob db jobId org userId rows r1 now1).nextId, 0, 0⟩
      0 e idx r h
  · have hAll : ∀ e ∈ extsOf rows,
        0 < (processImportJob db jobId org userId rows r1 now1).voters.countP
          (matchKeyB org e) := by
      intro e he
      have h1 : (processImportJob db jobId org userId rows r1 now1).voters.countP
          (matchKeyB org e) = 1 := run1.2.1 e he
      omega
    have hmap : (processImportJob (processImportJob db jobId org userId rows r1 now1)
        jobId org userId rows r2 now2).voters =
        (processImportJob db jobId org userId rows r1 now1).voters.map
          (overwriteFrom org r2 now2 0 rows) :=
      foldRows_map org r2 now2 rows
        ⟨(processImportJob db jobId org userId rows r1 now1).voters,
         (processImportJob db jobId org userId rows r1 now1).nextId, 0, 0⟩ 0 hAll
    rw [hmap, List.map_map]
    apply List.map_congr_left
    intro v hv
    show scrubVolatile (overwriteFrom org r2 now2 0 rows v) = scrubVolatile v
    cases hve : v.external_id with
    | none => rw [ow_no_ext org r2 now2 0 rows v hve]
    | some e =>
      by_cases ho : v.org_id = org
      · rw [ow_key org r2 now2 0 rows v e hve ho]
        cases hlast : lastOccFrom 0 rows e with
        | none => rfl
        | some p =>
          obtain ⟨idx, r⟩ := p
          have hkey : matchKeyB org e v = true := decide_eq_true ⟨ho, hve⟩
          have hchar := foldRows_lastWrite org r1 now1 rows
            ⟨db.voters, db.nextId, 0, 0⟩ 0 e idx r hlast v hv hkey
          calc scrubVolatile (setFields v (rowData r (r2 idx)) now2)
              = scrubVolatile (setFields v (rowData r (r1 idx)) now1) :=
                scrub_setFields v (rowCore r) _ _ _ _ now2 now1
            _ = scrubVolatile v := by rw [← hchar]
      · rw [ow_other_org org r2 now2 0 rows v e hve ho]

/-- C2 witness: the two-run convergence facts at a concrete one-row payload
on the empty tenant store. -/
theorem c2_import_rerun_witness :
    UniqueExt (processImportJob (processImportJob emptyDB 12 0 9 [c2row]
      zeroJitter 1) 12 0 9 [c2row] halfJitter 2).voters ∧
    (processImportJob (processImportJob emptyDB 12 0 9 [c2row] zeroJitter 1)
      12 0 9 [c2row] halfJitter 2).voters.countP (matchKeyB 0 "A") = 1 ∧
    (processImportJob (processImportJob emptyDB 12 0 9 [c2row] zeroJitter 1)
        12 0 9 [c2row] halfJitter 2).voters.map scrubVolatile =
      (processImportJob emptyDB 12 0 9 [c2row] zeroJitter 1).voters.map
        scrubVolatile := by
  have h := c2_import_rerun emptyDB 12 0 9 [c2row] zeroJitter halfJitter 1 2
    (by intro o e; simp [UniqueExt, emptyDB])
  exact ⟨h.1, h.2.1 "A" (by decide), h.2.2.2⟩
